import Mathlib

/-!
Shallow embedding of the bionli query-understanding pipeline and resolution
dispatcher, covering `src/core/nlp_processor.py` (class `EnhancedNLPProcessor`)
and `src/core/database_connector.py` (class `RealDatabaseConnector`).

Modelling conventions:
* Python strings are Lean `String`/`List Char`; `str.lower`/`str.upper` are
  mapped characterwise (the repository only processes ASCII queries).
* Python regular expressions are embedded as explicit decidable matchers.
  Every entity pattern in the source has the shape `\b(alt1|alt2|...)\b`
  whose alternatives consume only word characters, so a match is exactly a
  maximal word of the input that the alternation matches in full; the
  species pattern, whose alternatives contain spaces, is embedded as a
  direct left-to-right scan honouring alternation order and boundaries.
* Python float confidences 0.5/0.3/... are all decimal tenths and are
  embedded exactly as naturals scaled by ten (`5`, `3`, ...); no claim in
  scope depends on floating-point rounding.
* The spaCy named-entity recognizer and the HTTP-backed gene lookups
  (`query_ncbi_gene`, `query_ensembl`) are external capabilities (spec §6);
  they are injected as parameters (`List NerEnt`, `Oracle`).
* A Python `KeyError` (an uncaught exception) is modelled as `Option.none`
  propagating out of the function that raises it.
* Result records are Python dicts with string keys; claim-relevant scalar
  fields are embedded as an association list `List (String × String)`
  (list-valued fields are flattened to a single `;`-joined string).
-/

/-- Character is a word character for the purposes of `\b` (`[A-Za-z0-9_]`). -/
def isWordChar (c : Char) : Bool := c.isAlphanum || c == '_'

/-- Characterwise lowercase, modelling Python `str.lower` on ASCII text. -/
def lowerChars (l : List Char) : List Char := l.map Char.toLower

/-- Characterwise uppercase, modelling Python `str.upper` on ASCII text. -/
def upperChars (l : List Char) : List Char := l.map Char.toUpper

/-- Lowercased copy of a string. -/
def lowerStr (s : String) : String := String.mk (lowerChars s.data)

/-- Uppercased copy of a string. -/
def upperStr (s : String) : String := String.mk (upperChars s.data)

/-- Python `str.isdigit`: non-empty and all digits. -/
def isdigitPy (l : List Char) : Bool := !l.isEmpty && l.all Char.isDigit

/-- Python `text.upper() != text.lower()`: the text contains a cased
(alphabetic) character. -/
def hasCasedChar (l : List Char) : Bool := l.any (fun c => c.toUpper != c.toLower)

/-- Character in `[A-Z0-9]`. -/
def isUpperAlnum (c : Char) : Bool := (decide ('A' ≤ c) && decide (c ≤ 'Z')) || c.isDigit

/-- Python `re.match(r'^[A-Z0-9]+$', text)`: non-empty, all upper-case
letters or digits. -/
def upperAlnumShape (l : List Char) : Bool := !l.isEmpty && l.all isUpperAlnum

/-- Decidable `p` occurs as a contiguous sublist of `s`
(Python `p in s` on strings, and `re.search` of a literal pattern). -/
def containsSublist (p : List Char) : List Char → Bool
  | [] => p.isEmpty
  | c :: t => p.isPrefixOf (c :: t) || containsSublist p t

/-- Sub-string check on `String`s. -/
def strContains (p s : String) : Bool := containsSublist p.data s.data

/-- Boundary condition before a match position: previous character absent
or not a word character (`\b` on the left of a word-initial pattern). -/
def boundaryBefore (prev : Option Char) : Bool :=
  match prev with
  | none => true
  | some c => !isWordChar c

/-- Boundary condition at the end of a match: rest of input empty or its
first character not a word character (`\b` on the right). -/
def boundaryAfter (rest : List Char) : Bool :=
  match rest with
  | [] => true
  | c :: _ => !isWordChar c

/-- Auxiliary scanner for `wordSearch`, carrying the previous character. -/
def wordSearchAux (kw : List Char) (prev : Option Char) : List Char → Bool
  | [] => false
  | c :: t =>
    (boundaryBefore prev && kw.isPrefixOf (c :: t) && boundaryAfter ((c :: t).drop kw.length))
      || wordSearchAux kw (some c) t

/-- Python `re.search(r'\b' + re.escape(kw) + r'\b', text)` for a keyword
that starts and ends with a word character (all concept keywords do). -/
def wordSearch (kw text : List Char) : Bool := wordSearchAux kw none text

/-- Splits on newline characters, for `.*` matching (Python `.` does not
match a newline). -/
def splitNl : List Char → List (List Char)
  | [] => [[]]
  | c :: t =>
    match splitNl t with
    | [] => [[c]]
    | h :: r => if c == '\n' then [] :: h :: r else (c :: h) :: r

/-- Within one newline-free segment: an occurrence of `a` followed, at or
after its end, by an occurrence of `b`. Searching from the first
occurrence of `a` is complete because any later occurrence starts no
earlier. -/
def segSearch (a b : List Char) : List Char → Bool
  | [] => a.isEmpty && containsSublist b []
  | c :: t =>
    if a.isPrefixOf (c :: t) then containsSublist b ((c :: t).drop a.length)
    else segSearch a b t

/-- Python `re.search(a + '.*' + b, text)` for literal `a`, `b`. -/
def containsSeq2 (a b text : List Char) : Bool :=
  (splitNl text).any (fun seg => segSearch a b seg)

/-! ### Concept extraction (`_init_concept_keywords`, `_extract_concepts`) -/

/-- Concept keyword table from `_init_concept_keywords`, in source order. -/
def concept_keywords : List (String × List String) :=
  [ ("homology", ["homolog", "homologs", "homologous", "ortholog", "orthologs",
      "orthologous", "paralog", "paralogs", "equivalent", "counterpart", "version",
      "equivalent gene", "similar gene", "related gene"]),
    ("immune", ["immune", "immunity", "immunological", "lymphocyte", "t-cell",
      "b-cell", "antibody", "antigen"]),
    ("virus", ["virus", "viral", "virion", "bacteriophage", "retrovirus", "hiv",
      "influenza", "coronavirus"]),
    ("cancer", ["cancer", "tumor", "oncogene", "tumor suppressor", "carcinoma",
      "sarcoma", "leukemia"]),
    ("expression", ["expression", "expressed", "transcription", "translation",
      "mrna", "rna", "transcript"]),
    ("interaction", ["interaction", "interact", "binding", "complex", "dimer",
      "multimer", "association"]),
    ("pathway", ["pathway", "signaling", "cascade", "network", "circuit",
      "regulation"]),
    ("structure", ["structure", "domain", "motif", "fold", "conformation",
      "tertiary", "secondary"]),
    ("function", ["function", "role", "purpose", "activity", "mechanism",
      "effect", "action"]),
    ("sequence", ["sequence", "dna sequence", "protein sequence",
      "nucleotide sequence", "amino acid sequence"]) ]

/-- `_extract_concepts`: whole-word keyword matches grouped per concept, in
table order; concepts with no match are omitted. -/
def extract_concepts (query : String) : List (String × List String) :=
  let ql := lowerChars query.data
  concept_keywords.foldr
    (fun p acc =>
      let ms := p.2.filter (fun k => wordSearch k.data ql)
      if ms.isEmpty then acc else (p.1, ms) :: acc) []

/-! ### Entities -/

/-- One extracted entity (`entity_info` dict in `_extract_entities_advanced`).
Recognizer-sourced entities carry `label` and no `normalized` key;
pattern-sourced entities carry `normalized` and no `label` key.
Confidences are decimal tenths represented exactly as naturals
(`9` is the source's `0.9`, `7` its `0.7`). -/
structure Entity where
  text : String
  start : Nat
  stop : Nat
  conf : Nat
  source : String
  normalized : Option String
  label : Option String
deriving DecidableEq, Repr, Inhabited

/-- Entity map: Python `dict` from type bucket to entity list, with keys in
insertion order. -/
abbrev EMap := List (String × List Entity)

/-- One span produced by the external spaCy recognizer (`doc.ents`). -/
structure NerEnt where
  text : String
  start : Nat
  stop : Nat
  label : String
deriving DecidableEq, Repr, Inhabited

/-- Python truthiness of `entities.get(k)`: the key exists and its list is
non-empty. -/
def bucketTruthy (m : EMap) (k : String) : Bool :=
  match List.lookup k m with
  | some l => !l.isEmpty
  | none => false

/-- Python truthiness of `concepts.get(k)`. -/
def conceptTruthy (m : List (String × List String)) (k : String) : Bool :=
  match List.lookup k m with
  | some l => !l.isEmpty
  | none => false

/-- Python `'k' in entities` (key membership only). -/
def containsKey (m : EMap) (k : String) : Bool := m.any (fun p => p.1 == k)

/-! ### Validation gate (`_init_stop_words`, `_is_valid_biological_entity`) -/

/-- Stop-word set from `_init_stop_words`. -/
def stop_words : List String :=
  ["find", "search", "show", "tell", "get", "what", "which", "where", "when",
   "how", "why", "the", "a", "an", "and", "or", "but", "in", "on", "at", "to",
   "for", "of", "with", "by", "are", "is", "was", "were", "be", "been", "being",
   "have", "has", "had", "do", "does", "did", "can", "could", "will", "would",
   "should", "may", "might", "must", "me", "my", "your", "our", "their", "its",
   "this", "that", "these", "those", "here", "there", "very", "quite", "rather",
   "some", "any", "all", "both", "each", "every", "either", "neither",
   "version", "equivalent", "sequence", "sequences", "gene", "genes",
   "protein", "proteins"]

/-- `common_biological_terms` local to the gene branch of
`_is_valid_biological_entity`. -/
def common_biological_terms : List String :=
  ["genes", "proteins", "homologs", "orthologs", "paralogs", "mutations",
   "variants", "alleles", "loci", "chromosomes", "sequence", "sequences",
   "gene", "protein"]

/-- Question-word list checked (redundantly — it is a subset of the stop
words) inside the gene branch. -/
def question_words : List String :=
  ["which", "what", "where", "when", "how", "get", "show"]

/-- Lowercase classic gene aliases accepted without the all-caps shape. -/
def lowercase_gene_aliases : List String := ["p53", "p21", "p16", "p27"]

/-- `_is_valid_biological_entity`: stop-word filter for every type, plus the
gene-specific gate. -/
def is_valid_biological_entity (entityType : String) (text : List Char) : Bool :=
  let tl := String.mk (lowerChars text)
  if stop_words.contains tl then false
  else if entityType == "gene" then
    hasCasedChar text
      && decide (text.length ≥ 2)
      && !(common_biological_terms.contains tl)
      && !(isdigitPy text)
      && !(question_words.contains tl)
      && (upperAlnumShape text || lowercase_gene_aliases.contains tl)
  else true

/-! ### Query-type classification (`_classify_query_type_advanced`) -/

/-- A rule pattern of the classifier's score table: either a literal
`re.search` pattern or one of the `A.*B` patterns. -/
inductive QPat where
  | lit : String → QPat
  | dotstar : String → String → QPat
deriving Repr

/-- Evaluates one score-table pattern against the lowercased query. -/
def patSearch (ql : List Char) : QPat → Bool
  | .lit s => containsSublist s.data ql
  | .dotstar a b => containsSeq2 a.data b.data ql

/-- The `query_patterns` rule table of `_classify_query_type_advanced`, in
declaration order. -/
def query_patterns : List (String × (List QPat × List String)) :=
  [ ("function",
      ([QPat.lit "function of", QPat.lit "role of", QPat.lit "what does",
        QPat.lit "biological function", QPat.lit "purpose of"],
       ["function", "role", "purpose"])),
    ("expression",
      ([QPat.lit "expression in", QPat.lit "expressed in",
        QPat.lit "tissue expression", QPat.dotstar "where is" "expressed"],
       ["expression", "expressed", "tissue", "cell type"])),
    ("interaction",
      ([QPat.lit "interacts with", QPat.dotstar "interaction" "between",
        QPat.dotstar "protein" "interaction", QPat.lit "binds to"],
       ["interact", "interaction", "bind", "complex", "partner"])),
    ("sequence",
      ([QPat.lit "sequence of", QPat.lit "get sequence", QPat.lit "dna sequence",
        QPat.lit "protein sequence", QPat.lit "nucleotide sequence"],
       ["sequence", "dna", "rna", "amino acid", "nucleotide"])),
    ("homology",
      ([QPat.lit "homolog of", QPat.lit "ortholog of",
        QPat.dotstar "equivalent" "in", QPat.lit "counterpart in",
        QPat.lit "mouse version of"],
       ["homolog", "ortholog", "equivalent", "counterpart", "version"])) ]

/-- Score of one rule-table entry: 3 per matching pattern (each pattern
counted once), 1 per keyword contained in the lowercased query. -/
def entryScore (ql : List Char) (entry : List QPat × List String) : Nat :=
  3 * entry.1.countP (patSearch ql) + entry.2.countP (fun k => containsSublist k.data ql)

/-- Scores of all rule-table entries, in declaration order. -/
def scoreTable (query : String) : List (String × Nat) :=
  let ql := lowerChars query.data
  query_patterns.map (fun p => (p.1, entryScore ql p.2))

/-- The running-best fold of the classifier: start `('general', 0)`, replace
only on a strictly greater score. -/
def bestFold (l : List (String × Nat)) (acc : String × Nat) : String × Nat :=
  l.foldl (fun a p => if a.2 < p.2 then p else a) acc

/-- `_classify_query_type_advanced`: priority gates, then the score fold.
The spaCy `doc` parameter of the source is unused by the classification
logic and omitted. -/
def classify_query_type_advanced (query : String)
    (concepts : List (String × List String)) (entities : EMap) : String :=
  let ql := lowerChars query.data
  if conceptTruthy concepts "sequence" || containsSublist "sequence".data ql then
    "sequence"
  else if conceptTruthy concepts "homology" then "homology"
  else if conceptTruthy concepts "immune" && conceptTruthy concepts "virus" then
    "immune_virus_interaction"
  else if conceptTruthy concepts "cancer" && bucketTruthy entities "gene" then
    "cancer_gene"
  else if bucketTruthy entities "species" && bucketTruthy entities "gene"
      && (containsSublist "homolog".data ql || containsSublist "ortholog".data ql
          || containsSublist "equivalent".data ql) then
    "homology"
  else (bestFold (scoreTable query) ("general", 0)).1

/-! ### Confidence (`_calculate_confidence`) -/

/-- The generator `any(len(entities[etype]) > 0 for etype in ['gene',
'protein'])`: `entities['gene']` is a raw index, so a missing key raises
`KeyError` (modelled as `none`). -/
def geneProteinAny (entities : EMap) : Option Bool :=
  match List.lookup "gene" entities with
  | none => none
  | some g =>
    if !g.isEmpty then some true
    else
      match List.lookup "protein" entities with
      | none => none
      | some p => some (!p.isEmpty)

/-- `_calculate_confidence`: base 0.5, +0.3 / +0.2 / +0.1 bonuses, clamped
at 1.0, in exact decimal tenths (`5`, `+3`, `+2`, `+1`, clamp `10`).
`none` models the `KeyError` raised when `entities` is non-empty and the
indexed key is missing. -/
def calculate_confidence (entities : EMap) (query_type : String)
    (concepts : List (String × List String)) : Option Nat :=
  let bonusGP : Option Bool :=
    if entities.isEmpty then some false else geneProteinAny entities
  match bonusGP with
  | none => none
  | some b =>
    let c1 : Nat := 5 + (if b then 3 else 0)
    let c2 : Nat := c1 + (if query_type != "general" then 2 else 0)
    let c3 : Nat := c2 + (if !concepts.isEmpty then 1 else 0)
    some (if c3 ≤ 10 then c3 else 10)

/-! ### Entity extraction (`_init_biological_patterns`,
`_extract_entities_advanced`, `_is_already_extracted`, `_normalize_entity`)

Each entity pattern is `\b(...)\b` around alternatives made of word
characters only, so under `re.finditer` every match is a maximal
word-character run of the input matched in full by the alternation (a `\b`
cannot hold inside a run, and runs are non-overlapping). The species
pattern contains multi-word alternatives and is scanned directly. -/

/-- Splits the input into its maximal word-character runs, with start
indices, using explicit fuel (one step consumes at least one character, so
`length + 1` fuel is always enough). -/
def splitWordsF : Nat → Nat → List Char → List (Nat × List Char)
  | 0, _, _ => []
  | _ + 1, _, [] => []
  | fuel + 1, i, c :: t =>
    if isWordChar c then
      let run := (c :: t).takeWhile isWordChar
      (i, run) :: splitWordsF fuel (i + run.length) ((c :: t).dropWhile isWordChar)
    else splitWordsF fuel (i + 1) t

/-- Maximal word-character runs of the input with their start indices. -/
def splitWords (l : List Char) : List (Nat × List Char) :=
  splitWordsF (l.length + 1) 0 l

/-- Full-word match of the gene pattern
`[A-Z][A-Z0-9]+[0-9]*|[A-Z]{1,4}[0-9]{1,5}[A-Z]?|p53|p21|p16|p27` under
`re.IGNORECASE`: the first alternative subsumes the others on full words —
a letter followed by at least one alphanumeric character. -/
def geneFullmatch (w : List Char) : Bool :=
  match w with
  | [] => false
  | c :: t => c.isAlpha && !t.isEmpty && t.all Char.isAlphanum

/-- Full-word match of the protein pattern
`[A-Z][a-z]{2,}[0-9]*[A-Z]?|[A-Z]{1,6}[0-9]{1,6}` under `re.IGNORECASE`:
decomposing the word as leading letters `A`, then digits `D`, then rest
`T`, the first alternative requires `|A| ≥ 3` and `T` empty or a single
letter; the second requires `1 ≤ |A| ≤ 6`, `1 ≤ |D| ≤ 6`, `T` empty. -/
def proteinFullmatch (w : List Char) : Bool :=
  let a := w.takeWhile Char.isAlpha
  let rest := w.drop a.length
  let d := rest.takeWhile Char.isDigit
  let t := rest.drop d.length
  (decide (a.length ≥ 3) && (t.isEmpty || (decide (t.length = 1) && t.all Char.isAlpha)))
    || (decide (1 ≤ a.length) && decide (a.length ≤ 6)
        && decide (1 ≤ d.length) && decide (d.length ≤ 6) && t.isEmpty)

/-- Character in `[OPQ]`. -/
def isOPQ (c : Char) : Bool := c == 'O' || c == 'P' || c == 'Q'

/-- Character in `[A-NR-Z]`. -/
def isANRZ (c : Char) : Bool :=
  (decide ('A' ≤ c) && decide (c ≤ 'N')) || (decide ('R' ≤ c) && decide (c ≤ 'Z'))

/-- One group `[A-Z][A-Z0-9]{2}[0-9]` of the UniProt pattern. -/
def uniprotGroup : List Char → Bool
  | [g0, g1, g2, g3] =>
    decide ('A' ≤ g0) && decide (g0 ≤ 'Z') && isUpperAlnum g1 && isUpperAlnum g2
      && g3.isDigit
  | _ => false

/-- Full-word match of the case-sensitive UniProt pattern
`[OPQ][0-9][A-Z0-9]{3}[0-9]|[A-NR-Z][0-9]([A-Z][A-Z0-9]{2}[0-9]){1,2}`. -/
def uniprotFullmatch (w : List Char) : Bool :=
  (match w with
   | [c0, c1, c2, c3, c4, c5] =>
     isOPQ c0 && c1.isDigit && isUpperAlnum c2 && isUpperAlnum c3 && isUpperAlnum c4
       && c5.isDigit
   | _ => false)
  || (match w with
      | c0 :: c1 :: rest =>
        isANRZ c0 && c1.isDigit
          && (uniprotGroup rest
              || (uniprotGroup (rest.take 4) && uniprotGroup (rest.drop 4)
                  && decide (rest.length = 8)))
      | _ => false)

/-- Full-word match of the gene-id pattern `\d{1,10}`. -/
def geneIdFullmatch (w : List Char) : Bool :=
  w.all Char.isDigit && decide (1 ≤ w.length) && decide (w.length ≤ 10)

/-- Alternatives of the species pattern, in source order (`re.IGNORECASE`;
all lowercase in the source). -/
def species_alternatives : List String :=
  ["human", "mouse", "rat", "mus musculus", "drosophila", "yeast",
   "saccharomyces", "cerevisiae", "ecoli", "escherichia coli", "homo sapiens",
   "mus", "rattus"]

/-- Does alternative `alt` match case-insensitively at the head of `s`,
ending at a word boundary? -/
def speciesAltAt (alt : String) (s : List Char) : Bool :=
  decide (lowerChars (s.take alt.data.length) = alt.data)
    && boundaryAfter (s.drop alt.data.length)

/-- Left-to-right scan of the species pattern: at each position with a left
boundary, the first alternative that matches and ends at a boundary is
emitted (as the original-case slice of the input) and the scan resumes
after it. Fuel-driven; `length + 1` fuel suffices. -/
def speciesScanF : Nat → Option Char → Nat → List Char → List (Nat × List Char)
  | 0, _, _, _ => []
  | _ + 1, _, _, [] => []
  | fuel + 1, prev, i, c :: t =>
    match (if boundaryBefore prev then
            species_alternatives.find? (fun alt => speciesAltAt alt (c :: t))
           else none) with
    | some alt =>
      let n := alt.data.length
      (i, (c :: t).take n)
        :: speciesScanF fuel (((c :: t).take n).getLast? ) (i + n) ((c :: t).drop n)
    | none => speciesScanF fuel (some c) (i + 1) t

/-- All matches of the species pattern with their start indices. -/
def speciesFind (l : List Char) : List (Nat × List Char) :=
  speciesScanF (l.length + 1) none 0 l

/-- Pattern table order of `_init_biological_patterns`. -/
def pattern_types : List String := ["gene", "protein", "species", "uniprot_id", "gene_id"]

/-- `re.finditer` of the typed pattern over the raw query text, yielding
(match start, matched text) in scan order. -/
def patternFinditer (entityType : String) (q : List Char) : List (Nat × List Char) :=
  if entityType == "species" then speciesFind q
  else
    let full : List Char → Bool :=
      if entityType == "gene" then geneFullmatch
      else if entityType == "protein" then proteinFullmatch
      else if entityType == "uniprot_id" then uniprotFullmatch
      else geneIdFullmatch
    (splitWords q).filter (fun p => full p.2)

/-- `_normalize_entity`: species canonicalization, classic gene-name
normalization, otherwise uppercase. -/
def normalize_entity (entityType : String) (text : List Char) : String :=
  let tl := String.mk (lowerChars text)
  if entityType == "species" then
    match List.lookup tl
      [("human", "Homo sapiens"), ("mouse", "Mus musculus"),
       ("mice", "Mus musculus"), ("rat", "Rattus norvegicus"),
       ("mus", "Mus musculus"), ("rattus", "Rattus norvegicus"),
       ("yeast", "Saccharomyces cerevisiae"), ("ecoli", "Escherichia coli")] with
    | some v => v
    | none => String.mk text
  else
    match List.lookup tl
      [("insulin", "INS"), ("p53", "TP53"), ("brca", "BRCA1"), ("egf", "EGFR")] with
    | some v => v
    | none => String.mk (upperChars text)

/-- Appends an entity to the bucket of key `k`, creating the bucket at the
end when absent (Python `defaultdict(list)` append under dict insertion
order). -/
def appendAt : EMap → String → Entity → EMap
  | [], k, e => [(k, [e])]
  | (k', l) :: t, k, e =>
    if k' = k then (k', l ++ [e]) :: t else (k', l) :: appendAt t k e

/-- `_is_already_extracted`: any bucket already holds an entity with this
exact surface text. -/
def is_already_extracted (m : EMap) (t : String) : Bool :=
  m.any (fun p => p.2.any (fun e => e.text == t))

/-- Entity built by the recognizer pass (`source='spacy_ner'`,
`confidence=0.9`; stores the original label, no `normalized` key). -/
def mkNerEntity (ent : NerEnt) : Entity :=
  { text := ent.text, start := ent.start, stop := ent.stop, conf := 9,
    source := "spacy_ner", normalized := none, label := some ent.label }

/-- Entity built by the pattern pass (`source='pattern_match'`,
`confidence=0.7`, with `normalized`; no `label` key). -/
def mkPatEntity (entityType : String) (iw : Nat × List Char) : Entity :=
  { text := String.mk iw.2, start := iw.1, stop := iw.1 + iw.2.length,
    conf := 7, source := "pattern_match",
    normalized := some (normalize_entity entityType iw.2), label := none }

/-- Recognizer labels accepted by the first pass. -/
def ner_labels : List String := ["GENE", "PROTEIN", "ORGANISM", "CELL_TYPE"]

/-- One recognizer span step of the first pass: accept a span with an
accepted label that passes validation, bucketed under the lowercased
label. -/
def nerStep (m : EMap) (ent : NerEnt) : EMap :=
  if ner_labels.contains ent.label
      && is_valid_biological_entity (lowerStr ent.label) ent.text.data then
    appendAt m (lowerStr ent.label) (mkNerEntity ent)
  else m

/-- First pass of `_extract_entities_advanced`: accepted recognizer spans,
validated, appended under the lowercased label. -/
def nerPass (ner : List NerEnt) : EMap :=
  ner.foldl nerStep []

/-- One candidate step of the pattern pass: accept when valid and not
already extracted under any type. -/
def patFoldStep (entityType : String) (m : EMap) (iw : Nat × List Char) : EMap :=
  if is_valid_biological_entity entityType iw.2
      && !(is_already_extracted m (String.mk iw.2)) then
    appendAt m entityType (mkPatEntity entityType iw)
  else m

/-- Second pass of `_extract_entities_advanced` for one pattern type. -/
def patFoldList (entityType : String) (cands : List (Nat × List Char)) (m : EMap) : EMap :=
  cands.foldl (patFoldStep entityType) m

/-- Full pattern pass over the pattern table, in table order. -/
def patternPass (q : List Char) (m0 : EMap) : EMap :=
  pattern_types.foldl (fun m ty => patFoldList ty (patternFinditer ty q) m) m0

/-- Both extraction passes merged, before per-bucket dedup and sort. -/
def merged_entities (ner : List NerEnt) (query : String) : EMap :=
  patternPass query.data (nerPass ner)

/-- Per-bucket dedup by exact surface text, first occurrence kept
(the `seen` set loop of the source). -/
def dedupAux (seen : List String) : List Entity → List Entity
  | [] => []
  | e :: t => if seen.contains e.text then dedupAux seen t
              else e :: dedupAux (e.text :: seen) t

/-- Dedup of one bucket by surface text. -/
def dedupByText (l : List Entity) : List Entity := dedupAux [] l

/-- Stable insertion for descending sort by confidence: an element is
placed before the first element whose confidence is ≤ its own, so earlier
elements precede equal-confidence later ones (Python `sorted` is stable). -/
def insertDesc (x : Entity) : List Entity → List Entity
  | [] => [x]
  | y :: t => if y.conf ≤ x.conf then x :: y :: t else y :: insertDesc x t

/-- Stable descending sort by confidence, modelling
`sorted(..., key=confidence, reverse=True)`. -/
def sortDesc : List Entity → List Entity
  | [] => []
  | a :: t => insertDesc a (sortDesc t)

/-- `_extract_entities_advanced`: recognizer pass, pattern pass, then
per-bucket dedup and stable descending sort by confidence. -/
def extract_entities_advanced (ner : List NerEnt) (query : String) : EMap :=
  (merged_entities ner query).map (fun p => (p.1, sortDesc (dedupByText p.2)))

/-! ### Parse pipeline (`parse_query`) -/

/-- Structured parse result (`parse_query` return dict). The
`normalized_query`, `relationships` and `keywords` fields are not consumed
by the dispatcher (the latter two derive from the external spaCy model)
and are omitted. -/
structure Parsed where
  original_query : String
  entities : EMap
  concepts : List (String × List String)
  query_type : String
  confidence_score : Nat
deriving DecidableEq, Repr

/-- `parse_query`: extraction, concepts, classification, confidence. A
`KeyError` from `_calculate_confidence` aborts the parse (`none`). -/
def parse_query (ner : List NerEnt) (query : String) : Option Parsed :=
  let entities := extract_entities_advanced ner query
  let concepts := extract_concepts query
  let qt := classify_query_type_advanced query concepts entities
  match calculate_confidence entities qt concepts with
  | none => none
  | some c =>
    some { original_query := query, entities := entities, concepts := concepts,
           query_type := qt, confidence_score := c }

/-! ### Result records and the external gene-lookup collaborators -/

/-- A result record: a Python dict with string keys; the claim-relevant
scalar fields are kept, list/dict values are flattened to one string. -/
abbrev Rec := List (String × String)

/-- Python `r.get(k)` on a record. -/
def rget (r : Rec) (k : String) : Option String := List.lookup k r

/-- Python `r[k] = v` on a record: replace the first binding of `k`, or
append the key (dict insertion order). -/
def rset : Rec → String → String → Rec
  | [], k, v => [(k, v)]
  | (k', v') :: t, k, v =>
    if k' = k then (k, v) :: t else (k', v') :: rset t k v

/-- Record has `status == 'success'`. -/
def isSuccess (r : Rec) : Bool := rget r "status" == some "success"

/-- The external gene-lookup collaborators (spec §6): `query_ncbi_gene`
and `query_ensembl` perform network I/O, so their responses are injected.
Arguments: gene name, organism/species (both default to `"human"` at the
source call sites modelled here). -/
structure Oracle where
  ncbi : String → String → List Rec
  ensembl : String → String → List Rec

/-! ### `query_homology` -/

/-- The static `homolog_database` table of `query_homology`. -/
def homolog_database : List (String × List (String × String)) :=
  [ ("TP53", [("mouse", "Trp53"), ("rat", "Trp53"), ("human", "TP53")]),
    ("BRCA1", [("mouse", "Brca1"), ("rat", "Brca1"), ("human", "BRCA1")]),
    ("BRCA2", [("mouse", "Brca2"), ("rat", "Brca2"), ("human", "BRCA2")]),
    ("EGFR", [("mouse", "Egfr"), ("rat", "Egfr"), ("human", "EGFR")]),
    ("MYC", [("mouse", "Myc"), ("rat", "Myc"), ("human", "MYC")]),
    ("KRAS", [("mouse", "Kras"), ("rat", "Kras"), ("human", "KRAS")]),
    ("AKT1", [("mouse", "Akt1"), ("rat", "Akt1"), ("human", "AKT1")]),
    ("PTEN", [("mouse", "Pten"), ("rat", "Pten"), ("human", "PTEN")]),
    ("VEGF", [("mouse", "Vegfa"), ("rat", "Vegfa"), ("human", "VEGFA")]),
    ("INS", [("mouse", "Ins1"), ("rat", "Ins"), ("human", "INS")]),
    ("HEMOGLOBIN", [("mouse", "Hbb"), ("rat", "Hbb"), ("human", "HBB")]) ]

/-- `homolog_database[gene][species]` as an optional lookup
(`gene_name.upper() in db and target_species in db[...]`). -/
def homologLookup (geneUpper target : String) : Option String :=
  (List.lookup geneUpper homolog_database).bind (fun row => List.lookup target row)

/-- Tags a success record of the source-gene lookup
(`homology_note`, `query_type='homology_reference'`). -/
def tagHomologyRef (r : Rec) : Rec :=
  rset (rset r "homology_note" "Original human gene") "query_type" "homology_reference"

/-- Tags a success record of the homolog lookup (`homology_note`,
`original_gene`, `homology_relationship='ortholog'`,
`query_type='homology_result'`). -/
def tagHomologyRes (gene target : String) (r : Rec) : Rec :=
  rset (rset (rset (rset r "homology_note" (target ++ " homolog of " ++ gene))
    "original_gene" gene) "homology_relationship" "ortholog") "query_type" "homology_result"

/-- The single guidance record returned by `query_homology` when the static
table has no entry (it carries no `status` key). -/
def homology_guidance_record (gene target : String) : Rec :=
  [ ("query_type", "homology_guidance"),
    ("original_gene", gene),
    ("target_species", target),
    ("message", "Use specialized databases for detailed homology analysis"),
    ("recommended_tools", "Ensembl Compare;NCBI Homologene;OrthoDB"),
    ("direct_links", "ncbi homologene link;ensembl compara link"),
    ("common_homologs",
      "TP53 to Trp53 (mouse);BRCA1 to Brca1 (mouse);EGFR to Egfr (mouse);Use gene symbols in uppercase for best results"),
    ("source", "Homology Database") ]

/-- `query_homology`: static-table lookup; on a hit, the success records of
both gene lookups are tagged and returned when any exist; otherwise (and on
a table miss) the single guidance record is returned. -/
def query_homology (o : Oracle) (gene_name target_species : String) : List Rec :=
  match homologLookup (upperStr gene_name) target_species with
  | some homolog_name =>
    let originals := ((o.ncbi gene_name "human").filter isSuccess).map tagHomologyRef
    let homologs := ((o.ncbi homolog_name target_species).filter isSuccess).map
      (tagHomologyRes gene_name target_species)
    let results := originals ++ homologs
    if results.isEmpty then [homology_guidance_record gene_name target_species]
    else results
  | none => [homology_guidance_record gene_name target_species]

/-! ### `handle_sequence_query` -/

/-- The sequence-guidance record appended when no lookup succeeded
(it carries no `status` key). -/
def sequence_guidance_record (gene : String) : Rec :=
  [ ("query_type", "sequence_guidance"),
    ("gene", gene),
    ("message", "Sequence data for " ++ gene),
    ("sequence_sources", "NCBI Nucleotide;Ensembl;UCSC Genome Browser"),
    ("direct_links", "ncbi nucleotide link;ensembl summary link"),
    ("common_sequences", "insulin NM_000207;TP53 NM_000546;BRCA1 NM_007294"),
    ("source", "Sequence Database") ]

/-- Tags one gene-lookup record for a sequence query: success records gain
`sequence_info` and `query_type='sequence'`; others pass unchanged. -/
def tagSequence (r : Rec) : Rec :=
  if isSuccess r then
    rset (rset r "sequence_info" "Full sequences available via NCBI Nucleotide database")
      "query_type" "sequence"
  else r

/-- `handle_sequence_query`: NCBI lookup (default organism), success
records tagged, all records kept; the guidance record is appended when no
record succeeded. -/
def handle_sequence_query (o : Oracle) (gene_name : String) : List Rec :=
  let results := (o.ncbi gene_name "human").map tagSequence
  if results.any isSuccess then results
  else results ++ [sequence_guidance_record gene_name]

/-! ### `handle_concept_queries` -/

/-- First entity of a bucket (`entities[k][0]`; only evaluated under a
truthiness guard in the source). -/
def firstEntity (m : EMap) (k : String) : Entity :=
  (((List.lookup k m).getD []).headD default)

/-- The species-name map of the homology branch; unknown names default to
`"mouse"`. -/
def speciesKey (name : String) : String :=
  (List.lookup name
    [("homo sapiens", "human"), ("mus musculus", "mouse"),
     ("rattus norvegicus", "rat")]).getD "mouse"

/-- Immune gene list of the immune-virus branch. -/
def immune_genes : List String :=
  ["TLR3", "TLR7", "TLR8", "TLR9", "RIGI", "MDA5", "MAVS", "IRF3", "IRF7",
   "STAT1", "STAT2", "IFIT1", "IFIT2", "IFIT3", "OAS1", "PKR", "MX1"]

/-- Cancer gene list of the cancer branch. -/
def cancer_genes : List String :=
  ["TP53", "BRCA1", "BRCA2", "EGFR", "KRAS", "PTEN", "AKT1", "MYC"]

/-- Tags a record of the immune-virus branch: success records gain the
concept fields; others pass unchanged. -/
def tagImmune (r : Rec) : Rec :=
  if rget r "status" == some "success" then
    rset (rset (rset r "concept" "immune_response_antiviral")
      "virus_interaction" "Targeted by various viruses to evade immune detection")
      "mechanism" "Viruses often target these genes to suppress interferon response"
  else r

/-- The immune-virus fallback record (it carries no `status` key). -/
def immune_fallback_record : Rec :=
  [ ("concept", "immune_virus_interaction"),
    ("message", "Viruses target key immune genes to evade detection"),
    ("key_genes", "TLR3;TLR7;RIGI;MDA5;STAT1;IRF3"),
    ("viral_strategies",
      "Suppression of interferon signaling;Degradation of antiviral proteins;Inhibition of pattern recognition receptors;Modulation of cytokine responses"),
    ("examples",
      "HIV targets STAT1 to evade interferon response;Influenza inhibits RIG-I signaling;Herpes viruses target TLR pathways"),
    ("source", "Virology and Immunology Database") ]

/-- Tags a record of the cancer branch: success records gain the cancer
fields; others pass unchanged. -/
def tagCancer (r : Rec) : Rec :=
  if rget r "status" == some "success" then
    rset (rset r "concept" "cancer_related") "cancer_role" "Oncogene or tumor suppressor"
  else r

/-- `handle_concept_queries`: sequence branch, homology branch (which reads
the species entity's `normalized` key — a recognizer-sourced species
entity has none, raising `KeyError`, modelled as `none`), immune-virus
branch, cancer branch. -/
def handle_concept_queries (o : Oracle) (p : Parsed) : Option (List Rec) :=
  if p.query_type == "sequence" && bucketTruthy p.entities "gene" then
    some (handle_sequence_query o (firstEntity p.entities "gene").text)
  else if p.query_type == "homology" && bucketTruthy p.entities "gene"
      && bucketTruthy p.entities "species" then
    match (firstEntity p.entities "species").normalized with
    | none => none
    | some nz =>
      some (query_homology o (firstEntity p.entities "gene").text
        (speciesKey (lowerStr nz)))
  else
    some (
      if strContains "immune_virus_interaction" p.query_type
          || (conceptTruthy p.concepts "immune" && conceptTruthy p.concepts "virus") then
        let collected := (immune_genes.take 5).foldl
          (fun acc g => acc ++ (o.ncbi g "human").map tagImmune) []
        if collected.any isSuccess then collected
        else collected ++ [immune_fallback_record]
      else if strContains "cancer_gene" p.query_type
          || conceptTruthy p.concepts "cancer" then
        (cancer_genes.take 4).foldl
          (fun acc g => acc ++ (o.ncbi g "human").map tagCancer) []
      else [])

/-! ### `execute_complex_query` -/

/-- Tags one entity-branch record: `query_type`, `original_query` and
`timestamp` (whose wall-clock value is irrelevant to every claim and is a
fixed placeholder here). -/
def tagGeneric (query_type gene : String) (r : Rec) : Rec :=
  rset (rset (rset r "query_type" query_type) "original_query" gene)
    "timestamp" "time"

/-- The entity branch of `execute_complex_query`: for each gene entity,
NCBI then Ensembl results, each tagged. -/
def geneEntityResults (o : Oracle) (p : Parsed) : List Rec :=
  ((List.lookup "gene" p.entities).getD []).foldl
    (fun acc e =>
      acc ++ (o.ncbi e.text "human").map (tagGeneric p.query_type e.text)
        ++ (o.ensembl e.text "human").map (tagGeneric p.query_type e.text)) []

/-- The final guidance record of `execute_complex_query`. -/
def guidance_record (query_type : String) : Rec :=
  [ ("message", "No specific gene data found. Try these examples:"),
    ("examples",
      "What is the function of TP53?;Show me information about BRCA1;Find homologs of TP53 in mice;Tell me about the hemoglobin gene"),
    ("query_type", query_type),
    ("source", "BioNLI Assistant"),
    ("status", "guidance") ]

/-- `execute_complex_query`: sequence priority, homology priority, concept
branch, entity branch, guidance fallback. The `elif concepts and not
results` arm returns `handle_concept_queries` directly, bypassing the
final guidance append. `none` models an uncaught exception below. -/
def execute_complex_query (o : Oracle) (p : Parsed) : Option (List Rec) :=
  if p.query_type == "sequence" && bucketTruthy p.entities "gene" then
    some (handle_sequence_query o (firstEntity p.entities "gene").text)
  else
    match (if p.query_type == "homology" then handle_concept_queries o p
           else some []) with
    | none => none
    | some homology_results =>
      if p.query_type == "homology" && !homology_results.isEmpty then
        some homology_results
      else
        match handle_concept_queries o p with
        | none => none
        | some concept_results =>
          if containsKey p.entities "gene" && concept_results.isEmpty then
            let results := concept_results ++ geneEntityResults o p
            some (if results.isEmpty then [guidance_record p.query_type] else results)
          else if !p.concepts.isEmpty && concept_results.isEmpty then
            handle_concept_queries o p
          else
            some (if concept_results.isEmpty then [guidance_record p.query_type]
                  else concept_results)

/-! ### Concrete sample data used by scenario theorems and witnesses -/

/-- A sample oracle whose gene lookups each return one success record. -/
def sampleOracle : Oracle :=
  { ncbi := fun g s =>
      [[("status", "success"), ("symbol", g), ("organism", s), ("source", "NCBI Gene")]],
    ensembl := fun g s =>
      [[("status", "success"), ("symbol", g), ("organism", s), ("source", "Ensembl")]] }

/-- The pattern entity extracted from the query `"TP53"`. -/
def tp53_pattern_entity : Entity :=
  { text := "TP53", start := 0, stop := 4, conf := 7,
    source := "pattern_match", normalized := some "TP53", label := none }

/-- The first pattern entity extracted from `"asdkjasd randomtext"`. -/
def asdk_entity : Entity :=
  { text := "asdkjasd", start := 0, stop := 8, conf := 7,
    source := "pattern_match", normalized := some "ASDKJASD", label := none }

/-- The second pattern entity extracted from `"asdkjasd randomtext"`. -/
def randomtext_entity : Entity :=
  { text := "randomtext", start := 9, stop := 19, conf := 7,
    source := "pattern_match", normalized := some "RANDOMTEXT", label := none }

/-- The parse of the query `"sequence"`: no entities survive validation
(the word is a stop word), the sequence concept fires, confidence 0.8 (`8` tenths). -/
def sequence_only_parsed : Parsed :=
  { original_query := "sequence", entities := [],
    concepts := [("sequence", ["sequence"])], query_type := "sequence",
    confidence_score := 8 }

/-- The gene entity `DNA` extracted from the insulin scenario query. -/
def dna_entity : Entity :=
  { text := "DNA", start := 8, stop := 11, conf := 7,
    source := "pattern_match", normalized := some "DNA", label := none }

/-- The protein entity `insulin` extracted from the insulin scenario query. -/
def insulin_entity : Entity :=
  { text := "insulin", start := 24, stop := 31, conf := 7,
    source := "pattern_match", normalized := some "INS", label := none }

/-- The parse of `"Get the DNA sequence of insulin gene"`: `DNA` passes the
gene gate, `insulin` only the protein gate; the sequence concept fires. -/
def insulin_query_parsed : Parsed :=
  { original_query := "Get the DNA sequence of insulin gene",
    entities := [("gene", [dna_entity]), ("protein", [insulin_entity])],
    concepts := [("sequence", ["sequence", "dna sequence"])],
    query_type := "sequence", confidence_score := 10 }

/-! ### C1 -/

/-- C1: the claim states that `execute_complex_query` returns a list of
length at least one for every valid ParseResult. It is false: for the
ParseResult produced end-to-end by the pipeline on the query
`"sequence"` (non-empty concepts, no gene entity, no concept branch
firing), the `elif concepts and not results` arm returns the empty result
of `handle_concept_queries` directly, bypassing the guidance fallback, so
dispatch returns the empty list — for every oracle, since no branch
consults it. -/
theorem c1_dispatch_returns_empty_list (o : Oracle) :
    parse_query [] "sequence" = some sequence_only_parsed ∧
    execute_complex_query o sequence_only_parsed = some [] :=
  ⟨by decide, rfl⟩

/-! ### C2 -/

/-- C2: whenever `query_type` is `sequence` and a gene entity exists,
dispatch returns exactly the sequence handler's output on the first gene
entity's text, trying no further branch; and the scenario input
`"Get the DNA sequence of insulin gene"` parses to `query_type =
sequence` and dispatches exclusively to the sequence handler (invoked on
its gene entity `"DNA"`). -/
theorem c2_sequence_priority :
    (∀ (o : Oracle) (p : Parsed), p.query_type = "sequence" →
      bucketTruthy p.entities "gene" = true →
      execute_complex_query o p =
        some (handle_sequence_query o (firstEntity p.entities "gene").text)) ∧
    (∀ o : Oracle,
      parse_query [] "Get the DNA sequence of insulin gene" = some insulin_query_parsed ∧
      insulin_query_parsed.query_type = "sequence" ∧
      execute_complex_query o insulin_query_parsed =
        some (handle_sequence_query o "DNA")) := by
  constructor
  · intro o p h1 h2
    unfold execute_complex_query
    simp [h1, h2]
  · intro o
    exact ⟨by decide, rfl, rfl⟩

/-- Witness for C2: the sequence-priority branch at the concrete parse of
the insulin scenario query and the sample oracle. -/
theorem c2_sequence_priority_witness :
    execute_complex_query sampleOracle insulin_query_parsed =
      some (handle_sequence_query sampleOracle
        (firstEntity insulin_query_parsed.entities "gene").text) :=
  c2_sequence_priority.1 sampleOracle insulin_query_parsed rfl rfl

/-! ### C3 -/

/-- Claim-side predicate, from the spec's words: some gene- or
protein-typed entity exists in the map (total, unlike the raw indexing the
source performs). -/
def specHasGeneOrProtein (entities : EMap) : Bool :=
  !((List.lookup "gene" entities).getD []).isEmpty
    || !((List.lookup "protein" entities).getD []).isEmpty

/-- Claim-side confidence formula, from the spec's words, in decimal
tenths: base 0.5, +0.3 for a gene/protein entity, +0.2 for a non-general
query type, +0.1 for non-empty concepts, clamped to 1.0. -/
def claimed_confidence (entities : EMap) (query_type : String)
    (concepts : List (String × List String)) : Nat :=
  min (5 + (if specHasGeneOrProtein entities then 3 else 0)
    + (if query_type = "general" then 0 else 2)
    + (if concepts = [] then 0 else 1)) 10

/-- The guarded bonus computation of `_calculate_confidence` either raises
`KeyError` or agrees with the spec-side existence test. -/
theorem geneProteinAny_spec (entities : EMap) :
    (if entities.isEmpty then some false else geneProteinAny entities) = none
    ∨ (if entities.isEmpty then some false else geneProteinAny entities)
        = some (specHasGeneOrProtein entities) := by
  by_cases he : entities.isEmpty
  · right
    have he' : entities = [] := by simpa [List.isEmpty_iff] using he
    subst he'
    simp [specHasGeneOrProtein]
  · unfold geneProteinAny specHasGeneOrProtein
    rcases hg : List.lookup "gene" entities with _ | g
    · left; simp [he, hg]
    · by_cases hge : g.isEmpty
      · rcases hp : List.lookup "protein" entities with _ | p
        · left; simp [he, hg, hge, hp]
        · right; simp [he, hg, hge, hp]
      · right
        have hge' : (!g.isEmpty) = true := by simpa using hge
        simp [he, hg, hge']

/-- C3: the claim describes `_calculate_confidence` as total with result in
[0.5, 1.0]. The code instead indexes `entities['gene']` (and possibly
`entities['protein']`) directly, so any non-empty entities map without
those keys raises `KeyError` — e.g. the protein-only map the pipeline
itself produces for `"asdkjasd randomtext"`. On every input where no
`KeyError` occurs, the claimed formula and bounds do hold (second
conjunct). -/
theorem c3_confidence_formula :
    calculate_confidence [("protein", [asdk_entity, randomtext_entity])] "general" [] = none ∧
    (∀ (entities : EMap) (query_type : String)
      (concepts : List (String × List String)) (r : Nat),
      calculate_confidence entities query_type concepts = some r →
        r = claimed_confidence entities query_type concepts ∧ 5 ≤ r ∧ r ≤ 10) := by
  refine ⟨rfl, ?_⟩
  intro entities query_type concepts r h
  unfold calculate_confidence at h
  rcases geneProteinAny_spec entities with hB | hB
  · rw [hB] at h; exact absurd h (by simp)
  · rw [hB] at h
    simp only [Option.some.injEq] at h
    have hq : (if (query_type != "general") = true then 2 else 0)
        = (if query_type = "general" then 0 else 2) := by
      by_cases hq0 : query_type = "general" <;> simp [hq0]
    have hc : (if (!concepts.isEmpty) = true then 1 else 0)
        = (if concepts = [] then 0 else 1) := by
      by_cases hc0 : concepts = [] <;> simp [hc0]
    have hr : r = claimed_confidence entities query_type concepts := by
      rw [← h]
      unfold claimed_confidence
      rw [Nat.min_def, hq, hc]
    refine ⟨hr, ?_, ?_⟩
    · rw [hr]; unfold claimed_confidence
      rcases Nat.min_le_left (5 + (if specHasGeneOrProtein entities then 3 else 0)
        + (if query_type = "general" then 0 else 2)
        + (if concepts = [] then 0 else 1)) 10 with _
      rw [Nat.min_def]
      split_ifs <;> omega
    · rw [hr]; exact Nat.min_le_right _ _

/-- Witness for C3's second conjunct at a concrete gene-carrying entities
map: the code returns 0.8 (8 tenths), matching the claimed formula and
bounds. -/
theorem c3_confidence_formula_witness :
    8 = claimed_confidence [("gene", [tp53_pattern_entity])] "general" [] ∧
      5 ≤ 8 ∧ 8 ≤ 10 :=
  c3_confidence_formula.2 [("gene", [tp53_pattern_entity])] "general" [] 8 rfl

/-! ### C4 -/

/-- C4: the claim expects `"asdkjasd randomtext"` to parse with no
entities and confidence exactly 0.5. Instead, the case-insensitive protein
pattern (any word of three or more letters) accepts both words as protein
entities, and `_calculate_confidence` then raises `KeyError` on the
missing `'gene'` key, so `parse_query` crashes and produces nothing; the
concepts are empty and the classifier result is `general` as claimed. -/
theorem c4_gibberish_scenario :
    extract_entities_advanced [] "asdkjasd randomtext"
        = [("protein", [asdk_entity, randomtext_entity])] ∧
    extract_concepts "asdkjasd randomtext" = [] ∧
    classify_query_type_advanced "asdkjasd randomtext"
        (extract_concepts "asdkjasd randomtext")
        (extract_entities_advanced [] "asdkjasd randomtext") = "general" ∧
    calculate_confidence (extract_entities_advanced [] "asdkjasd randomtext")
        "general" [] = none ∧
    parse_query [] "asdkjasd randomtext" = none :=
  ⟨by decide, by decide, by decide, by decide, by decide⟩

/-! ### C6 -/

/-- `containsSublist` decides contiguous-sublist occurrence. -/
theorem containsSublist_occurrence_iff (p s : List Char) :
    containsSublist p s = true ↔ p <:+: s := by
  induction s with
  | nil =>
    simp only [containsSublist, List.isEmpty_iff]
    constructor
    · rintro rfl; exact List.infix_refl []
    · intro h; exact List.eq_nil_of_infix_nil h
  | cons c t ih =>
    simp only [containsSublist, Bool.or_eq_true, List.isPrefixOf_iff_prefix, ih]
    exact (show p <:+: c :: t ↔ p <+: c :: t ∨ p <:+: t from List.infix_cons_iff).symm

/-- Transitivity of the sub-string check. -/
theorem containsSublist_trans {a b c : List Char}
    (h1 : containsSublist a b = true) (h2 : containsSublist b c = true) :
    containsSublist a c = true := by
  rw [containsSublist_occurrence_iff] at h1 h2 ⊢
  exact h1.trans h2

/-- Claim-side check, from the spec's words: some keyword of the sequence
concept occurs in the lowercased query. -/
def seqKeywordPresent (query : String) : Bool :=
  ((List.lookup "sequence" concept_keywords).getD []).any
    (fun k => containsSublist k.data (lowerChars query.data))

/-- C6: whenever the query contains a sequence keyword, or the extracted
sequence concept is non-empty, the classifier returns `sequence`
immediately — for every entities map, hence regardless of any
lower-priority rule (in particular when homology keywords are present
too). -/
theorem c6_sequence_rule_short_circuits
    (query : String) (entities : EMap)
    (h : seqKeywordPresent query = true
      ∨ conceptTruthy (extract_concepts query) "sequence" = true) :
    classify_query_type_advanced query (extract_concepts query) entities = "sequence" := by
  have hfire : (conceptTruthy (extract_concepts query) "sequence"
      || containsSublist "sequence".data (lowerChars query.data)) = true := by
    rcases h with h | h
    · have hword : ∀ k ∈ (List.lookup "sequence" concept_keywords).getD [],
          containsSublist "sequence".data k.data = true := by decide
      rcases List.any_eq_true.mp h with ⟨k, hk, hks⟩
      have : containsSublist "sequence".data (lowerChars query.data) = true :=
        containsSublist_trans (hword k hk) hks
      simp [this]
    · simp [h]
  unfold classify_query_type_advanced
  simp only [hfire, if_true]

/-- Witness for C6 at a query containing both a sequence keyword and a
homology keyword. -/
theorem c6_sequence_rule_short_circuits_witness :
    classify_query_type_advanced "Find the sequence homolog"
      (extract_concepts "Find the sequence homolog") [] = "sequence" :=
  c6_sequence_rule_short_circuits "Find the sequence homolog" [] (Or.inl (by decide))

/-! ### C7 -/

/-- Maximum score of a score table (0 for the empty table). -/
def maxScore (l : List (String × Nat)) : Nat :=
  l.foldr (fun p m => max p.2 m) 0

/-- Claim-side selection, from the spec's words: if every score is zero the
result is `general`; otherwise the first entry attaining the maximum
score wins (strictly-highest wins, ties go to declaration order). -/
def specSelect (l : List (String × Nat)) : String :=
  if maxScore l = 0 then "general"
  else
    match l.find? (fun p => p.2 == maxScore l) with
    | some p => p.1
    | none => "general"

/-- The classifier's fold never moves off an accumulator that already
dominates every score. -/
theorem bestFold_of_le :
    ∀ (l : List (String × Nat)) (acc : String × Nat),
      maxScore l ≤ acc.2 → bestFold l acc = acc := by
  intro l
  induction l with
  | nil => intro acc _; rfl
  | cons p t ih =>
    intro acc h
    have h' : max p.2 (maxScore t) ≤ acc.2 := h
    rcases Nat.max_le.mp h' with ⟨h1, h2⟩
    show bestFold t (if acc.2 < p.2 then p else acc) = acc
    rw [if_neg (Nat.not_lt.mpr h1)]
    exact ih acc h2

/-- When some score strictly exceeds the accumulator, the classifier's fold
lands on the first entry attaining the maximum score. -/
theorem bestFold_of_lt :
    ∀ (l : List (String × Nat)) (acc : String × Nat),
      acc.2 < maxScore l →
      ∃ p, l.find? (fun q => q.2 == maxScore l) = some p ∧ bestFold l acc = p := by
  intro l
  induction l with
  | nil => intro acc h; exact absurd h (Nat.not_lt.mpr (Nat.zero_le _))
  | cons p t ih =>
    intro acc h
    by_cases hpt : maxScore t ≤ p.2
    · have hM : maxScore (p :: t) = p.2 := Nat.max_eq_left hpt
      have hlt : acc.2 < p.2 := by rw [hM] at h; exact h
      refine ⟨p, ?_, ?_⟩
      · exact List.find?_cons_of_pos _ (by rw [hM]; exact beq_self_eq_true _)
      · show bestFold t (if acc.2 < p.2 then p else acc) = p
        rw [if_pos hlt]
        exact bestFold_of_le t p hpt
    · have hpt' : p.2 < maxScore t := Nat.not_le.mp hpt
      have hM : maxScore (p :: t) = maxScore t := Nat.max_eq_right (Nat.le_of_lt hpt')
      have hneg : ¬((fun q : String × Nat => q.2 == maxScore t) p = true) := by
        simp only [beq_iff_eq]
        exact Nat.ne_of_lt hpt'
      have hfind : ∀ q, List.find? (fun q => q.2 == maxScore t) t = some q →
          List.find? (fun q => q.2 == maxScore (p :: t)) (p :: t) = some q := by
        intro q hq
        simp only [hM]
        rw [@List.find?_cons_of_neg (String × Nat) (fun q => q.2 == maxScore t) p t hneg]
        exact hq
      by_cases ha : acc.2 < p.2
      · rcases ih p hpt' with ⟨q, hfq, hbq⟩
        refine ⟨q, hfind q hfq, ?_⟩
        show bestFold t (if acc.2 < p.2 then p else acc) = q
        rw [if_pos ha]; exact hbq
      · have h' : acc.2 < maxScore t := by rw [hM] at h; exact h
        rcases ih acc h' with ⟨q, hfq, hbq⟩
        refine ⟨q, hfind q hfq, ?_⟩
        show bestFold t (if acc.2 < p.2 then p else acc) = q
        rw [if_neg ha]; exact hbq

/-- The classifier's running-best fold implements exactly the claim-side
selection: first strict maximum wins, `general` when all scores vanish. -/
theorem bestFold_eq_specSelect (l : List (String × Nat)) :
    (bestFold l ("general", 0)).1 = specSelect l := by
  unfold specSelect
  by_cases hm : maxScore l = 0
  · rw [if_pos hm, bestFold_of_le l ("general", 0) (by rw [hm])]
  · rw [if_neg hm]
    rcases bestFold_of_lt l ("general", 0) (Nat.pos_of_ne_zero hm) with ⟨p, hf, hb⟩
    rw [hf, hb]

/-- C7: when no priority gate of `_classify_query_type_advanced` fires, the
result is determined by the score table (3 per distinct matching pattern
plus 1 per distinct keyword present, per `entryScore`/`scoreTable`): the
first type attaining the strictly highest score wins, and `general` is
returned exactly when every score is zero. -/
theorem c7_score_fallback_selection
    (query : String) (concepts : List (String × List String)) (entities : EMap)
    (h1 : conceptTruthy concepts "sequence" = false)
    (h2 : containsSublist "sequence".data (lowerChars query.data) = false)
    (h3 : conceptTruthy concepts "homology" = false)
    (h4 : (conceptTruthy concepts "immune" && conceptTruthy concepts "virus") = false)
    (h5 : (conceptTruthy concepts "cancer" && bucketTruthy entities "gene") = false)
    (h6 : (bucketTruthy entities "species" && bucketTruthy entities "gene"
      && (containsSublist "homolog".data (lowerChars query.data)
          || containsSublist "ortholog".data (lowerChars query.data)
          || containsSublist "equivalent".data (lowerChars query.data))) = false) :
    classify_query_type_advanced query concepts entities = specSelect (scoreTable query) := by
  unfold classify_query_type_advanced
  simp only [h1, h2, h3, h4, h5, h6, Bool.or_self, Bool.or_false, Bool.false_eq_true,
    if_false]
  exact bestFold_eq_specSelect _

/-- Witness for C7 at the gate-free query `"what does TP53 do"` (whose
winning score-table entry is `function`, via the pattern `what does`). -/
theorem c7_score_fallback_selection_witness :
    classify_query_type_advanced "what does TP53 do" [] []
      = specSelect (scoreTable "what does TP53 do") :=
  c7_score_fallback_selection "what does TP53 do" [] []
    rfl (by decide) rfl rfl rfl rfl

/-! ### Extraction invariants: shared machinery -/

/-- All entities of a map, in bucket order (flattened Python dict values). -/
def allEnts : EMap → List Entity
  | [] => []
  | p :: t => p.2 ++ allEnts t

/-- Membership in the flattened map. -/
theorem mem_allEnts_iff {e : Entity} :
    ∀ {m : EMap}, e ∈ allEnts m ↔ ∃ p ∈ m, e ∈ p.2 := by
  intro m
  induction m with
  | nil => simp [allEnts]
  | cons p t ih =>
    simp only [allEnts, List.mem_append, ih, List.mem_cons]
    constructor
    · rintro (h | ⟨q, hq, he⟩)
      · exact ⟨p, Or.inl rfl, h⟩
      · exact ⟨q, Or.inr hq, he⟩
    · rintro ⟨q, hq | hq, he⟩
      · subst hq; exact Or.inl he
      · exact Or.inr ⟨q, hq, he⟩

/-- Lookup after `appendAt`: the bucket of `k` gains `e` at its end, other
buckets are untouched. -/
theorem lookup_appendAt :
    ∀ (m : EMap) (k k' : String) (e : Entity),
      List.lookup k' (appendAt m k e)
        = if k' = k then some (((List.lookup k m).getD []) ++ [e])
          else List.lookup k' m := by
  intro m
  induction m with
  | nil =>
    intro k k' e
    by_cases hk : k' = k
    · subst hk; simp [appendAt, List.lookup]
    · have hb : (k' == k) = false := by simp [hk]
      simp [appendAt, List.lookup, hk, hb]
  | cons p t ih =>
    intro k k' e
    rcases p with ⟨k0, l0⟩
    unfold appendAt
    by_cases h0 : k0 = k
    · subst h0
      by_cases hk : k' = k0
      · subst hk; simp [List.lookup]
      · have hb : (k' == k0) = false := by simp [hk]
        simp [List.lookup, hb, hk]
    · rw [if_neg h0]
      by_cases hk : k' = k0
      · subst hk
        have hkne : k' ≠ k := h0
        have hbk : (k' == k) = false := by simp [hkne]
        simp [List.lookup, hkne]
      · have hb : (k' == k0) = false := by simp [hk]
        by_cases hkk : k' = k
        · subst hkk
          simp [List.lookup, hb, ih k' k' e]
        · simp [List.lookup, hb, ih k k' e, hkk]

/-- Flattened membership after `appendAt`. -/
theorem mem_allEnts_appendAt {x e : Entity} {k : String} :
    ∀ {m : EMap}, x ∈ allEnts (appendAt m k e) ↔ x ∈ allEnts m ∨ x = e := by
  intro m
  induction m with
  | nil => simp [appendAt, allEnts]
  | cons p t ih =>
    rcases p with ⟨k0, l0⟩
    unfold appendAt
    by_cases h0 : k0 = k
    · subst h0
      simp only [if_pos rfl, allEnts, List.mem_append, List.mem_singleton]
      tauto
    · simp only [if_neg h0, allEnts, List.mem_append, ih]
      tauto

/-- Pointwise predicates survive `appendAt` when the new entity satisfies
them. -/
theorem allEnts_forall_appendAt {P : Entity → Prop} {m : EMap} {k : String} {e : Entity}
    (hm : ∀ f ∈ allEnts m, P f) (he : P e) :
    ∀ f ∈ allEnts (appendAt m k e), P f := by
  intro f hf
  rcases mem_allEnts_appendAt.mp hf with hf | hf
  · exact hm f hf
  · subst hf; exact he

/-- A pairwise relation implied by surface-text distinctness survives
`appendAt` of a text-fresh entity. -/
theorem pairwise_allEnts_appendAt {R : Entity → Entity → Prop}
    (hR : ∀ a b, a.text ≠ b.text → R a b) {k : String} {e : Entity} :
    ∀ {m : EMap}, (∀ f ∈ allEnts m, f.text ≠ e.text) →
      (allEnts m).Pairwise R → (allEnts (appendAt m k e)).Pairwise R := by
  intro m
  induction m with
  | nil =>
    intro _ _
    show (allEnts [(k, [e])]).Pairwise R
    simp [allEnts]
  | cons p t ih =>
    rcases p with ⟨k0, l0⟩
    intro hfresh hp
    have hp' := List.pairwise_append.mp hp
    rcases hp' with ⟨hl0, ht, hcross⟩
    unfold appendAt
    by_cases h0 : k0 = k
    · subst h0
      rw [if_pos rfl]
      show ((l0 ++ [e]) ++ allEnts t).Pairwise R
      rw [List.pairwise_append]
      refine ⟨?_, ht, ?_⟩
      · rw [List.pairwise_append]
        refine ⟨hl0, List.pairwise_singleton R e, ?_⟩
        intro a ha b hb
        rw [List.mem_singleton] at hb
        rw [hb]
        exact hR a e (hfresh a (List.mem_append_left _ ha))
      · intro a ha b hb
        rcases List.mem_append.mp ha with ha | ha
        · exact hcross a ha b hb
        · rw [List.mem_singleton] at ha
          rw [ha]
          exact hR e b (Ne.symm (hfresh b (List.mem_append_right _ hb)))
    · rw [if_neg h0]
      show (l0 ++ allEnts (appendAt t k e)).Pairwise R
      rw [List.pairwise_append]
      refine ⟨hl0, ih (fun f hf => hfresh f (List.mem_append_right _ hf)) ht, ?_⟩
      intro a ha b hb
      rcases mem_allEnts_appendAt.mp hb with hb | hb
      · exact hcross a ha b hb
      · rw [hb]
        exact hR a e (hfresh a (List.mem_append_left _ ha))

/-- A failed `_is_already_extracted` check means the text is fresh across
all buckets. -/
theorem not_already_text_ne {m : EMap} {t : String}
    (h : is_already_extracted m t = false) :
    ∀ f ∈ allEnts m, f.text ≠ t := by
  intro f hf he
  rcases mem_allEnts_iff.mp hf with ⟨p, hpm, hfp⟩
  have hc : is_already_extracted m t = true := by
    unfold is_already_extracted
    rw [List.any_eq_true]
    refine ⟨p, hpm, ?_⟩
    rw [List.any_eq_true]
    exact ⟨f, hfp, by simp [he]⟩
  rw [hc] at h
  cases h

/-! ### Dedup and stable-sort lemmas -/

/-- The dedup loop yields a sublist of its input. -/
theorem dedupAux_sublist : ∀ (l : List Entity) (seen : List String),
    List.Sublist (dedupAux seen l) l := by
  intro l
  induction l with
  | nil => intro seen; exact List.Sublist.refl _
  | cons e t ih =>
    intro seen
    unfold dedupAux
    by_cases hs : seen.contains e.text
    · rw [if_pos hs]
      exact (ih seen).cons e
    · rw [if_neg hs]
      exact (ih (e.text :: seen)).cons₂ e

/-- Every survivor of the dedup loop has a text outside the seen set. -/
theorem mem_dedupAux_not_seen : ∀ (l : List Entity) (seen : List String) (e : Entity),
    e ∈ dedupAux seen l → seen.contains e.text = false := by
  intro l
  induction l with
  | nil => intro seen e h; cases h
  | cons x t ih =>
    intro seen e h
    unfold dedupAux at h
    by_cases hs : seen.contains x.text
    · rw [if_pos hs] at h
      exact ih seen e h
    · rw [if_neg hs] at h
      rcases List.mem_cons.mp h with h | h
      · subst h
        simpa using hs
      · have hmem := ih (x.text :: seen) e h
        simp only [List.contains_cons, Bool.or_eq_false_iff] at hmem
        exact hmem.2

/-- The dedup loop produces pairwise-distinct surface texts. -/
theorem pairwise_dedupAux : ∀ (l : List Entity) (seen : List String),
    (dedupAux seen l).Pairwise (fun a b => a.text ≠ b.text) := by
  intro l
  induction l with
  | nil => intro seen; exact List.Pairwise.nil
  | cons x t ih =>
    intro seen
    unfold dedupAux
    by_cases hs : seen.contains x.text
    · rw [if_pos hs]; exact ih seen
    · rw [if_neg hs]
      refine List.Pairwise.cons ?_ (ih (x.text :: seen))
      intro b hb hxb
      have hmem := mem_dedupAux_not_seen t (x.text :: seen) b hb
      simp only [List.contains_cons, Bool.or_eq_false_iff] at hmem
      have hne : (b.text == x.text) = false := hmem.1
      rw [hxb] at hne
      simp at hne

/-- Stable descending insertion permutes to a cons. -/
theorem insertDesc_perm (x : Entity) : ∀ l, List.Perm (insertDesc x l) (x :: l) := by
  intro l
  induction l with
  | nil => exact List.Perm.refl _
  | cons y t ih =>
    unfold insertDesc
    by_cases h : y.conf ≤ x.conf
    · rw [if_pos h]
    · rw [if_neg h]
      exact (List.Perm.cons y ih).trans (List.Perm.swap x y t)

/-- Stable descending sort permutes its input. -/
theorem sortDesc_perm : ∀ l, List.Perm (sortDesc l) l := by
  intro l
  induction l with
  | nil => exact List.Perm.refl _
  | cons a t ih =>
    exact (insertDesc_perm a (sortDesc t)).trans (List.Perm.cons a ih)

/-- Inserting into a descending-sorted list keeps it descending. -/
theorem insertDesc_pairwise (x : Entity) :
    ∀ {l}, l.Pairwise (fun a b => b.conf ≤ a.conf) →
      (insertDesc x l).Pairwise (fun a b => b.conf ≤ a.conf) := by
  intro l
  induction l with
  | nil => intro _; simp [insertDesc]
  | cons y t ih =>
    intro hp
    rcases List.pairwise_cons.mp hp with ⟨hy, ht⟩
    unfold insertDesc
    by_cases h : y.conf ≤ x.conf
    · rw [if_pos h]
      refine List.Pairwise.cons ?_ hp
      intro b hb
      rcases List.mem_cons.mp hb with hb | hb
      · subst hb; exact h
      · exact Nat.le_trans (hy b hb) h
    · rw [if_neg h]
      refine List.Pairwise.cons ?_ (ih ht)
      intro b hb
      rcases List.mem_cons.mp ((insertDesc_perm x t).mem_iff.mp hb) with hb | hb
      · rw [hb]; exact Nat.le_of_not_le h
      · exact hy b hb

/-- The sort output is descending by confidence. -/
theorem sortDesc_pairwise : ∀ l, (sortDesc l).Pairwise (fun a b => b.conf ≤ a.conf) := by
  intro l
  induction l with
  | nil => exact List.Pairwise.nil
  | cons a t ih => exact insertDesc_pairwise a ih

/-- Stability of the insertion, phrased on confidence classes: the
equal-confidence subsequence gains the new element exactly at its front
when confidences agree. -/
theorem filter_insertDesc (x : Entity) (c : Nat) :
    ∀ l, (insertDesc x l).filter (fun e => e.conf == c)
      = if x.conf = c then x :: l.filter (fun e => e.conf == c)
        else l.filter (fun e => e.conf == c) := by
  intro l
  induction l with
  | nil =>
    by_cases h : x.conf = c
    · have hb : (x.conf == c) = true := by simp [h]
      simp [insertDesc, List.filter, hb, h]
    · have hb : (x.conf == c) = false := by simp [h]
      simp [insertDesc, List.filter, hb, h]
  | cons y t ih =>
    unfold insertDesc
    by_cases hxy : y.conf ≤ x.conf
    · rw [if_pos hxy]
      by_cases h : x.conf = c
      · have hb : (x.conf == c) = true := by simp [h]
        simp [List.filter, hb, h]
      · have hb : (x.conf == c) = false := by simp [h]
        simp [List.filter, hb, h]
    · rw [if_neg hxy]
      have hylt : x.conf < y.conf := Nat.lt_of_not_le hxy
      by_cases h : x.conf = c
      · have hy : (y.conf == c) = false := by
          subst h
          simp only [beq_eq_false_iff_ne, ne_eq]
          exact fun hc => absurd hc.symm (Nat.ne_of_lt hylt)
        simp [List.filter, hy, ih, h]
      · by_cases hy : y.conf = c
        · have hyb : (y.conf == c) = true := by simp [hy]
          simp [List.filter, hyb, ih, h]
        · have hyb : (y.conf == c) = false := by simp [hy]
          simp [List.filter, hyb, ih, h]

/-- Stability of the sort: within each confidence class the original
order is preserved. -/
theorem filter_sortDesc (c : Nat) :
    ∀ l, (sortDesc l).filter (fun e => e.conf == c) = l.filter (fun e => e.conf == c) := by
  intro l
  induction l with
  | nil => rfl
  | cons a t ih =>
    show (insertDesc a (sortDesc t)).filter (fun e => e.conf == c) = _
    rw [filter_insertDesc]
    by_cases h : a.conf = c
    · have hb : (a.conf == c) = true := by simp [h]
      simp [List.filter, ih, h, hb]
    · have hb : (a.conf == c) = false := by simp [h]
      simp [List.filter, ih, h, hb]

/-! ### Fold invariants over the two extraction passes -/

/-- Pointwise predicates over all entities survive the recognizer fold. -/
theorem allEnts_forall_nerFold {P : Entity → Prop}
    (hP : ∀ ent, P (mkNerEntity ent)) :
    ∀ (ner : List NerEnt) (m : EMap), (∀ f ∈ allEnts m, P f) →
      ∀ f ∈ allEnts (ner.foldl nerStep m), P f := by
  intro ner
  induction ner with
  | nil => intro m hm; exact hm
  | cons ent rest ih =>
    intro m hm
    show ∀ f ∈ allEnts (rest.foldl nerStep (nerStep m ent)), P f
    apply ih
    unfold nerStep
    split
    · exact allEnts_forall_appendAt hm (hP ent)
    · exact hm

/-- Pointwise predicates over all entities survive the pattern fold of one
type. -/
theorem allEnts_forall_patFoldList {P : Entity → Prop} {ty : String}
    (hP : ∀ c, P (mkPatEntity ty c)) :
    ∀ (cands : List (Nat × List Char)) (m : EMap), (∀ f ∈ allEnts m, P f) →
      ∀ f ∈ allEnts (patFoldList ty cands m), P f := by
  intro cands
  induction cands with
  | nil => intro m hm; exact hm
  | cons c cs ih =>
    intro m hm
    show ∀ f ∈ allEnts (patFoldList ty cs (patFoldStep ty m c)), P f
    apply ih
    unfold patFoldStep
    split
    · exact allEnts_forall_appendAt hm (hP c)
    · exact hm

/-- Pointwise predicates over all entities survive the pattern pass over
any type list. -/
theorem allEnts_forall_typesFold {P : Entity → Prop} {q : List Char}
    (hP : ∀ ty c, P (mkPatEntity ty c)) :
    ∀ (tys : List String) (m : EMap), (∀ f ∈ allEnts m, P f) →
      ∀ f ∈ allEnts (tys.foldl (fun m ty => patFoldList ty (patternFinditer ty q) m) m), P f := by
  intro tys
  induction tys with
  | nil => intro m hm; exact hm
  | cons ty rest ih =>
    intro m hm
    apply ih
    exact allEnts_forall_patFoldList (fun c => hP ty c) _ m hm

/-- Pointwise predicates hold on the merged extraction map whenever both
entity constructors satisfy them. -/
theorem allEnts_forall_merged {P : Entity → Prop}
    (hner : ∀ ent, P (mkNerEntity ent)) (hpat : ∀ ty c, P (mkPatEntity ty c)) :
    ∀ (ner : List NerEnt) (query : String), ∀ f ∈ allEnts (merged_entities ner query), P f := by
  intro ner query
  unfold merged_entities patternPass
  apply allEnts_forall_typesFold hpat
  apply allEnts_forall_nerFold hner
  intro f hf
  cases hf

/-- Source/confidence invariant of every constructed entity: recognizer
entities carry 0.9, pattern entities carry 0.7, and no other source
occurs. -/
def SourceConf (e : Entity) : Prop :=
  (e.source = "spacy_ner" → e.conf = 9) ∧ (e.source = "pattern_match" → e.conf = 7)
    ∧ (e.source = "spacy_ner" ∨ e.source = "pattern_match")

/-- Every entity of the merged map satisfies the source/confidence
invariant. -/
theorem sourceConf_merged (ner : List NerEnt) (query : String) :
    ∀ f ∈ allEnts (merged_entities ner query), SourceConf f := by
  apply allEnts_forall_merged
  · intro ent
    exact ⟨fun _ => rfl, fun h => absurd h (by simp [mkNerEntity]), Or.inl rfl⟩
  · intro ty c
    exact ⟨fun h => absurd h (by simp [mkPatEntity]), fun _ => rfl, Or.inr rfl⟩

/-- The pairwise relation of claim C10: whenever either entity is
pattern-sourced, the two surface texts differ. -/
def DistinctFromPattern (a b : Entity) : Prop :=
  (a.source = "pattern_match" ∨ b.source = "pattern_match") → a.text ≠ b.text

/-- The C10 relation is symmetric. -/
theorem distinctFromPattern_symm : Symmetric DistinctFromPattern := by
  intro a b h hor
  exact Ne.symm (h hor.symm)

/-- Lists free of pattern-sourced entities are vacuously pairwise
`DistinctFromPattern`. -/
theorem pairwise_of_no_pattern :
    ∀ l : List Entity, (∀ a ∈ l, a.source ≠ "pattern_match") →
      l.Pairwise DistinctFromPattern := by
  intro l
  induction l with
  | nil => intro _; exact List.Pairwise.nil
  | cons x t ih =>
    intro h
    refine List.Pairwise.cons ?_ (ih fun a ha => h a (List.mem_cons_of_mem x ha))
    intro b hb hor
    rcases hor with hx | hbp
    · exact absurd hx (h x (List.mem_cons_self x t))
    · exact absurd hbp (h b (List.mem_cons_of_mem x hb))

/-- The pattern fold of one type preserves pairwise
`DistinctFromPattern`: each accepted candidate was checked fresh against
every bucket by `_is_already_extracted`. -/
theorem pairwise_patFoldList {ty : String} :
    ∀ (cands : List (Nat × List Char)) (m : EMap),
      (allEnts m).Pairwise DistinctFromPattern →
      (allEnts (patFoldList ty cands m)).Pairwise DistinctFromPattern := by
  intro cands
  induction cands with
  | nil => intro m h; exact h
  | cons c cs ih =>
    intro m h
    show (allEnts (patFoldList ty cs (patFoldStep ty m c))).Pairwise DistinctFromPattern
    apply ih
    unfold patFoldStep
    split
    · rename_i hcond
      have hfresh : is_already_extracted m (String.mk c.2) = false := by
        have h2 := hcond
        simp only [Bool.and_eq_true, Bool.not_eq_true'] at h2
        exact h2.2
      exact @pairwise_allEnts_appendAt DistinctFromPattern (fun a b hab _ => hab)
        ty (mkPatEntity ty c) m (not_already_text_ne hfresh) h
    · exact h

/-- The full pattern pass over any type list preserves pairwise
`DistinctFromPattern`. -/
theorem pairwise_typesFold {q : List Char} :
    ∀ (tys : List String) (m : EMap),
      (allEnts m).Pairwise DistinctFromPattern →
      (allEnts (tys.foldl (fun m ty => patFoldList ty (patternFinditer ty q) m)
        m)).Pairwise DistinctFromPattern := by
  intro tys
  induction tys with
  | nil => intro m h; exact h
  | cons ty rest ih =>
    intro m h
    exact ih _ (pairwise_patFoldList _ m h)

/-- Every entity of the recognizer pass is recognizer-sourced. -/
theorem nerPass_sources (ner : List NerEnt) :
    ∀ f ∈ allEnts (nerPass ner), f.source = "spacy_ner" := by
  unfold nerPass
  exact @allEnts_forall_nerFold (fun f => f.source = "spacy_ner") (fun ent => rfl) ner []
    (fun f hf => absurd hf (List.not_mem_nil f))

/-- The merged map is pairwise `DistinctFromPattern`. -/
theorem pairwise_merged (ner : List NerEnt) (query : String) :
    (allEnts (merged_entities ner query)).Pairwise DistinctFromPattern := by
  unfold merged_entities patternPass
  apply pairwise_typesFold
  apply pairwise_of_no_pattern
  intro a ha
  rw [nerPass_sources ner a ha]
  simp

/-! ### From the merged map to the final extraction output -/

/-- Lookup commutes with the final per-bucket dedup-and-sort map. -/
theorem lookup_extract (ner : List NerEnt) (query : String) (k : String) :
    List.lookup k (extract_entities_advanced ner query)
      = (List.lookup k (merged_entities ner query)).map
          (fun l => sortDesc (dedupByText l)) := by
  unfold extract_entities_advanced
  generalize merged_entities ner query = m
  induction m with
  | nil => rfl
  | cons p t ih =>
    rcases p with ⟨k0, l0⟩
    by_cases hk : k = k0
    · subst hk
      simp [List.lookup]
    · have hb : (k == k0) = false := by simp [hk]
      simp [List.lookup, hb, ih]

/-- The flattened dedup-mapped buckets form a sublist of the flattened
map. -/
theorem allEnts_map_dedup_sublist :
    ∀ m : EMap,
      List.Sublist (allEnts (m.map (fun p => (p.1, dedupByText p.2)))) (allEnts m) := by
  intro m
  induction m with
  | nil => exact List.Sublist.refl _
  | cons p t ih =>
    show List.Sublist (dedupByText p.2 ++ _) (p.2 ++ _)
    exact List.Sublist.append (dedupAux_sublist p.2 []) ih

/-- The flattened sorted buckets permute the flattened dedup-mapped
buckets. -/
theorem allEnts_map_sort_perm :
    ∀ m : EMap,
      List.Perm (allEnts (m.map (fun p => (p.1, sortDesc (dedupByText p.2)))))
        (allEnts (m.map (fun p => (p.1, dedupByText p.2)))) := by
  intro m
  induction m with
  | nil => exact List.Perm.refl _
  | cons p t ih =>
    exact List.Perm.append (sortDesc_perm (dedupByText p.2)) ih

/-- Entities of a looked-up bucket belong to the flattened map. -/
theorem lookup_some_subset_allEnts :
    ∀ {m : EMap} {k : String} {l : List Entity},
      List.lookup k m = some l → ∀ e ∈ l, e ∈ allEnts m := by
  intro m
  induction m with
  | nil => intro k l h; cases h
  | cons p t ih =>
    intro k l h e he
    rcases p with ⟨k0, l0⟩
    by_cases hk : k = k0
    · subst hk
      simp only [List.lookup, beq_self_eq_true] at h
      injection h with h
      subst h
      exact List.mem_append_left _ he
    · have hb : (k == k0) = false := by simp [hk]
      simp only [List.lookup, hb] at h
      exact List.mem_append_right _ (ih h e he)

/-! ### C10 -/

/-- C10: in the final extraction output, every pattern-sourced entity's
surface text differs from the surface text of every other entity across
all type buckets — the pattern pass admits a candidate only after
`_is_already_extracted` finds its exact text nowhere, and later additions
re-check against it. Recognizer-pass entities may still collide with each
other; the claim is about pattern-sourced ones, captured by the
symmetric relation `DistinctFromPattern`. -/
theorem c10_pattern_text_unique_across_buckets (ner : List NerEnt) (query : String) :
    (allEnts (extract_entities_advanced ner query)).Pairwise DistinctFromPattern := by
  unfold extract_entities_advanced
  have h1 : (allEnts ((merged_entities ner query).map
      (fun p => (p.1, dedupByText p.2)))).Pairwise DistinctFromPattern :=
    (pairwise_merged ner query).sublist (allEnts_map_dedup_sublist _)
  exact ((allEnts_map_sort_perm (merged_entities ner query)).pairwise_iff
    (fun {x y} h => distinctFromPattern_symm h)).mpr h1

/-! ### C9 -/

/-- C9: each bucket of the extraction output (i) never holds two entities
with the same surface text, (ii) is descending by confidence, (iii) is
the stable descending sort of the deduplicated raw bucket, preserving the
original scan order inside each confidence class, and (iv) never places a
pattern-sourced entity before a recognizer-sourced one, so
recognizer-sourced entities (0.9) rank at or above pattern-sourced ones
(0.7). -/
theorem c9_bucket_ranking_invariants (ner : List NerEnt) (query : String)
    (k : String) (bucket : List Entity)
    (h : List.lookup k (extract_entities_advanced ner query) = some bucket) :
    bucket.Pairwise (fun a b => a.text ≠ b.text)
    ∧ bucket.Pairwise (fun a b => b.conf ≤ a.conf)
    ∧ (∃ raw, List.lookup k (merged_entities ner query) = some raw
        ∧ bucket = sortDesc (dedupByText raw)
        ∧ ∀ c, bucket.filter (fun e => e.conf == c)
            = (dedupByText raw).filter (fun e => e.conf == c))
    ∧ bucket.Pairwise (fun a b => a.source = "pattern_match" → b.source = "pattern_match") := by
  rw [lookup_extract] at h
  rcases Option.map_eq_some'.mp h with ⟨raw, hraw, hb⟩
  subst hb
  have hmem : ∀ e ∈ sortDesc (dedupByText raw), e ∈ allEnts (merged_entities ner query) := by
    intro e he
    have h1 : e ∈ dedupByText raw := (sortDesc_perm (dedupByText raw)).mem_iff.mp he
    have h2 : e ∈ raw := (dedupAux_sublist raw []).subset h1
    exact lookup_some_subset_allEnts hraw e h2
  refine ⟨?_, sortDesc_pairwise _, ⟨raw, hraw, rfl, fun c => filter_sortDesc c _⟩, ?_⟩
  · exact ((sortDesc_perm (dedupByText raw)).pairwise_iff
      (fun {a b} hab => Ne.symm hab)).mpr (pairwise_dedupAux raw [])
  · refine (sortDesc_pairwise (dedupByText raw)).imp_of_mem ?_
    intro a b ha hb hba hap
    have hsa := sourceConf_merged ner query a (hmem a ha)
    have hsb := sourceConf_merged ner query b (hmem b hb)
    rcases hsb.2.2 with hbn | hbp
    · have h9 : b.conf = 9 := hsb.1 hbn
      have h7 : a.conf = 7 := hsa.2.1 hap
      rw [h9, h7] at hba
      omega
    · exact hbp

/-- Witness for C9 at the concrete query `"TP53"` with no recognizer
spans: the gene bucket holds the single pattern entity. -/
theorem c9_bucket_ranking_invariants_witness :
    ([tp53_pattern_entity] : List Entity).Pairwise (fun a b => a.text ≠ b.text)
    ∧ ([tp53_pattern_entity] : List Entity).Pairwise (fun a b => b.conf ≤ a.conf)
    ∧ (∃ raw, List.lookup "gene" (merged_entities [] "TP53") = some raw
        ∧ [tp53_pattern_entity] = sortDesc (dedupByText raw)
        ∧ ∀ c, ([tp53_pattern_entity] : List Entity).filter (fun e => e.conf == c)
            = (dedupByText raw).filter (fun e => e.conf == c))
    ∧ ([tp53_pattern_entity] : List Entity).Pairwise
        (fun a b => a.source = "pattern_match" → b.source = "pattern_match") :=
  c9_bucket_ranking_invariants [] "TP53" "gene" [tp53_pattern_entity] (by decide)

/-! ### C5 -/

/-- Bucket-keyed validity invariant: every entity of a bucket passed the
validation gate for that bucket's type. -/
def ValidMap (m : EMap) : Prop :=
  ∀ k l, List.lookup k m = some l →
    ∀ e ∈ l, is_valid_biological_entity k e.text.data = true

/-- `appendAt` preserves the validity invariant when the appended entity
passed the gate for its bucket. -/
theorem validMap_appendAt {m : EMap} {k : String} {e : Entity}
    (hm : ValidMap m) (he : is_valid_biological_entity k e.text.data = true) :
    ValidMap (appendAt m k e) := by
  intro k' l hl f hf
  rw [lookup_appendAt] at hl
  by_cases hk : k' = k
  · rw [if_pos hk] at hl
    injection hl with hl
    subst hl hk
    rcases List.mem_append.mp hf with hf | hf
    · rcases hg : List.lookup k' m with _ | g
      · rw [hg] at hf; cases hf
      · rw [hg] at hf; exact hm k' g hg f hf
    · rw [List.mem_singleton] at hf
      rw [hf]
      exact he
  · rw [if_neg hk] at hl
    exact hm k' l hl f hf

/-- The recognizer fold preserves the validity invariant. -/
theorem validMap_nerFold :
    ∀ (ner : List NerEnt) (m : EMap), ValidMap m → ValidMap (ner.foldl nerStep m) := by
  intro ner
  induction ner with
  | nil => intro m hm; exact hm
  | cons ent rest ih =>
    intro m hm
    apply ih
    unfold nerStep
    split
    · rename_i hcond
      rcases Bool.and_eq_true _ _ ▸ hcond with ⟨_, hval⟩
      exact validMap_appendAt hm hval
    · exact hm

/-- The pattern fold of one type preserves the validity invariant. -/
theorem validMap_patFoldList {ty : String} :
    ∀ (cands : List (Nat × List Char)) (m : EMap),
      ValidMap m → ValidMap (patFoldList ty cands m) := by
  intro cands
  induction cands with
  | nil => intro m hm; exact hm
  | cons c cs ih =>
    intro m hm
    apply ih
    unfold patFoldStep
    split
    · rename_i hcond
      rcases Bool.and_eq_true _ _ ▸ hcond with ⟨hval, _⟩
      exact validMap_appendAt hm hval
    · exact hm

/-- The validity invariant holds on the merged extraction map. -/
theorem validMap_merged (ner : List NerEnt) (query : String) :
    ValidMap (merged_entities ner query) := by
  unfold merged_entities patternPass
  have hbase : ValidMap (nerPass ner) := by
    unfold nerPass
    apply validMap_nerFold
    intro k l hl
    cases hl
  generalize nerPass ner = m0 at hbase
  revert m0
  induction pattern_types with
  | nil => intro m0 hm; exact hm
  | cons ty rest ih =>
    intro m0 hm
    exact ih _ (validMap_patFoldList _ m0 hm)

/-- The gene gate exactly as the claim words it, with its "contains at
least one uppercase letter" requirement. -/
def claimed_gene_gate (t : List Char) : Bool :=
  t.any Char.isUpper && decide (t.length ≥ 2) && !(isdigitPy t)
    && !(common_biological_terms.contains (String.mk (lowerChars t)))
    && !(stop_words.contains (String.mk (lowerChars t)))
    && (upperAlnumShape t || lowercase_gene_aliases.contains (String.mk (lowerChars t)))

/-- The amended gene gate: identical to the claim except that the text
need only contain a letter (of either case) — the code tests
`text.upper() != text.lower()`, not the presence of an uppercase
letter. -/
def amended_gene_gate (t : List Char) : Bool :=
  hasCasedChar t && decide (t.length ≥ 2) && !(isdigitPy t)
    && !(common_biological_terms.contains (String.mk (lowerChars t)))
    && !(stop_words.contains (String.mk (lowerChars t)))
    && (upperAlnumShape t || lowercase_gene_aliases.contains (String.mk (lowerChars t)))

/-- Counterexample to C5 as stated: the whitelisted alias `p53` contains
no uppercase letter, so the claim's conjunction rejects it, yet the
validation gate accepts it. -/
theorem c5_counterexample_p53 :
    is_valid_biological_entity "gene" "p53".data = true
      ∧ claimed_gene_gate "p53".data = false := by decide

/-- The question-word list of the gene branch is contained in the global
stop-word list. -/
theorem question_subset_stop :
    ∀ s : String, s ∈ question_words → s ∈ stop_words := by
  intro s h
  simp only [question_words, List.mem_cons, List.not_mem_nil, or_false] at h
  rcases h with h | h | h | h | h | h | h <;> subst h <;> decide

/-- C5 (amended): the gene gate accepts exactly the texts passing the
amended condition (a cased letter rather than an uppercase letter; the
redundant question-word check is absorbed by the stop-word check), and
every entity of every extraction-output bucket passed the gate of its
bucket — failing candidates are omitted entirely. -/
theorem c5_gene_gate_characterization :
    (∀ t : List Char, is_valid_biological_entity "gene" t = amended_gene_gate t)
    ∧ (∀ (ner : List NerEnt) (query : String) (k : String) (bucket : List Entity),
        List.lookup k (extract_entities_advanced ner query) = some bucket →
        ∀ e ∈ bucket, is_valid_biological_entity k e.text.data = true) := by
  constructor
  · intro t
    unfold is_valid_biological_entity amended_gene_gate
    by_cases hstop : (String.mk (lowerChars t)) ∈ stop_words
    · simp [hstop]
    · have hq : (String.mk (lowerChars t)) ∉ question_words :=
        fun hc => hstop (question_subset_stop _ hc)
      by_cases h1 : hasCasedChar t <;>
        by_cases h2 : t.length ≥ 2 <;>
        by_cases h3 : isdigitPy t <;>
        by_cases h4 : (String.mk (lowerChars t)) ∈ common_biological_terms <;>
        simp [hstop, hq, h1, h2, h3, h4]
  · intro ner query k bucket h e he
    rw [lookup_extract] at h
    rcases Option.map_eq_some'.mp h with ⟨raw, hraw, hb⟩
    subst hb
    have h1 : e ∈ dedupByText raw := (sortDesc_perm (dedupByText raw)).mem_iff.mp he
    have h2 : e ∈ raw := (dedupAux_sublist raw []).subset h1
    exact validMap_merged ner query k raw hraw e h2

/-- Witness for C5's omission conjunct at the concrete query `"TP53"`. -/
theorem c5_gene_gate_characterization_witness :
    is_valid_biological_entity "gene" tp53_pattern_entity.text.data = true :=
  c5_gene_gate_characterization.2 [] "TP53" "gene" [tp53_pattern_entity]
    (by decide) tp53_pattern_entity (List.mem_singleton.mpr rfl)

/-! ### C8 -/

/-- Setting a key makes it readable. -/
theorem rget_rset_self : ∀ (r : Rec) (k v : String), rget (rset r k v) k = some v := by
  intro r
  induction r with
  | nil => intro k v; simp [rset, rget, List.lookup]
  | cons p t ih =>
    intro k v
    rcases p with ⟨k0, v0⟩
    unfold rset
    by_cases h : k0 = k
    · subst h; simp [rget, List.lookup]
    · rw [if_neg h]
      have hb : (k == k0) = false := by simp [Ne.symm h]
      simp only [rget, List.lookup, hb]
      exact ih k v

/-- Setting a key leaves other keys unchanged. -/
theorem rget_rset_other :
    ∀ (r : Rec) (k k' v : String), k' ≠ k → rget (rset r k v) k' = rget r k' := by
  intro r
  induction r with
  | nil =>
    intro k k' v h
    have hb : (k' == k) = false := by simp [h]
    simp [rset, rget, List.lookup, hb]
  | cons p t ih =>
    intro k k' v h
    rcases p with ⟨k0, v0⟩
    unfold rset
    by_cases h0 : k0 = k
    · subst h0
      rw [if_pos rfl]
      have hb : (k' == k0) = false := by simp [h]
      simp [rget, List.lookup, hb]
    · rw [if_neg h0]
      by_cases hk : k' = k0
      · subst hk; simp [rget, List.lookup]
      · have hb : (k' == k0) = false := by simp [hk]
        simp only [rget, List.lookup, hb]
        exact ih k k' v h

/-- A `homology_result` record keeps its `ortholog` relationship label. -/
theorem rget_tagHomologyRes_relationship (gene target : String) (r : Rec) :
    rget (tagHomologyRes gene target r) "homology_relationship" = some "ortholog" := by
  unfold tagHomologyRes
  rw [rget_rset_other _ "query_type" "homology_relationship" "homology_result" (by decide)]
  exact rget_rset_self _ "homology_relationship" "ortholog"

/-- The records served by `sampleOracle.ncbi`. -/
def sample_success_record (g s : String) : Rec :=
  [("status", "success"), ("symbol", g), ("organism", s), ("source", "NCBI Gene")]

/-- The gene entity `TP53` extracted from the mice scenario query. -/
def tp53_at17_entity : Entity :=
  { text := "TP53", start := 17, stop := 21, conf := 7,
    source := "pattern_match", normalized := some "TP53", label := none }

/-- The protein entity `homologs` extracted from the mice scenario query. -/
def homologs_entity : Entity :=
  { text := "homologs", start := 5, stop := 13, conf := 7,
    source := "pattern_match", normalized := some "HOMOLOGS", label := none }

/-- The protein entity `mice` extracted from the mice scenario query
(`mice` is not in the species pattern, so no species entity exists). -/
def mice_entity : Entity :=
  { text := "mice", start := 25, stop := 29, conf := 7,
    source := "pattern_match", normalized := some "MICE", label := none }

/-- The parse of `"Find homologs of TP53 in mice"`. -/
def mice_query_parsed : Parsed :=
  { original_query := "Find homologs of TP53 in mice",
    entities := [("gene", [tp53_at17_entity]), ("protein", [homologs_entity, mice_entity])],
    concepts := [("homology", ["homologs"])],
    query_type := "homology", confidence_score := 10 }

/-- C8 (amended): homology resolution behaves as claimed at the function
level — on a static-table hit whose two gene lookups return success
records, the output covers the source gene (tagged `homology_reference`)
and the target-species homolog (tagged `homology_result`, relationship
`ortholog`); on a table miss it is exactly one guidance record and never
an error-status record. The claim's scenario, however, is wrong: parsing
`"Find homologs of TP53 in mice"` yields no species entity (`mice` is
not in the species pattern), so dispatch never invokes homology
resolution and instead returns entity-branch records tagged
`query_type='homology'` (or the guidance record when the lookups return
nothing). -/
theorem c8_homology_resolution :
    (∀ (o : Oracle) (gene target homolog : String),
      homologLookup (upperStr gene) target = some homolog →
      ∀ r1 ∈ o.ncbi gene "human", isSuccess r1 = true →
      ∀ r2 ∈ o.ncbi homolog target, isSuccess r2 = true →
        tagHomologyRef r1 ∈ query_homology o gene target
        ∧ tagHomologyRes gene target r2 ∈ query_homology o gene target
        ∧ rget (tagHomologyRef r1) "query_type" = some "homology_reference"
        ∧ rget (tagHomologyRes gene target r2) "query_type" = some "homology_result"
        ∧ rget (tagHomologyRes gene target r2) "homology_relationship" = some "ortholog")
    ∧ (∀ (o : Oracle) (gene target : String),
      homologLookup (upperStr gene) target = none →
        query_homology o gene target = [homology_guidance_record gene target]
        ∧ ∀ r ∈ query_homology o gene target, rget r "status" ≠ some "error")
    ∧ (∀ o : Oracle,
      parse_query [] "Find homologs of TP53 in mice" = some mice_query_parsed
      ∧ execute_complex_query o mice_query_parsed
          = some (if (geneEntityResults o mice_query_parsed).isEmpty
                  then [guidance_record "homology"]
                  else geneEntityResults o mice_query_parsed)) := by
  refine ⟨?_, ?_, ?_⟩
  · intro o gene target homolog hlk r1 hr1 hs1 r2 hr2 hs2
    have hmem1 : tagHomologyRef r1
        ∈ ((o.ncbi gene "human").filter isSuccess).map tagHomologyRef :=
      List.mem_map_of_mem _ (List.mem_filter.mpr ⟨hr1, hs1⟩)
    have hmem2 : tagHomologyRes gene target r2
        ∈ ((o.ncbi homolog target).filter isSuccess).map (tagHomologyRes gene target) :=
      List.mem_map_of_mem _ (List.mem_filter.mpr ⟨hr2, hs2⟩)
    have hLne : (((o.ncbi gene "human").filter isSuccess).map tagHomologyRef
        ++ ((o.ncbi homolog target).filter isSuccess).map (tagHomologyRes gene target)) ≠ [] :=
      List.ne_nil_of_mem (List.mem_append_left _ hmem1)
    have hEmpty : (((o.ncbi gene "human").filter isSuccess).map tagHomologyRef
        ++ ((o.ncbi homolog target).filter isSuccess).map
            (tagHomologyRes gene target)).isEmpty = false := by
      rcases hL2 : (((o.ncbi gene "human").filter isSuccess).map tagHomologyRef
        ++ ((o.ncbi homolog target).filter isSuccess).map (tagHomologyRes gene target)) with
        _ | ⟨a, t⟩
      · exact absurd hL2 hLne
      · rfl
    have hq : query_homology o gene target
        = ((o.ncbi gene "human").filter isSuccess).map tagHomologyRef
          ++ ((o.ncbi homolog target).filter isSuccess).map (tagHomologyRes gene target) := by
      unfold query_homology
      rw [hlk]
      simp only [hEmpty, Bool.false_eq_true, if_false]
    rw [hq]
    refine ⟨List.mem_append_left _ hmem1, List.mem_append_right _ hmem2, ?_, ?_, ?_⟩
    · exact rget_rset_self _ "query_type" "homology_reference"
    · exact rget_rset_self _ "query_type" "homology_result"
    · exact rget_tagHomologyRes_relationship gene target r2
  · intro o gene target hlk
    have hq : query_homology o gene target = [homology_guidance_record gene target] := by
      unfold query_homology
      rw [hlk]
    refine ⟨hq, ?_⟩
    intro r hr
    rw [hq] at hr
    rw [List.mem_singleton] at hr
    rw [hr]
    intro hc
    have hs : rget (homology_guidance_record gene target) "status" = none := rfl
    rw [hs] at hc
    exact Option.noConfusion hc
  · intro o
    exact ⟨by decide, rfl⟩

/-- Counterexample to C8's scenario: on `"Find homologs of TP53 in mice"`
with the sample oracle, dispatch returns a non-empty list, none of whose
records carries a `homology_reference` or `homology_result` tag. -/
def c8_scenario_outcome : List Rec :=
  match parse_query [] "Find homologs of TP53 in mice" with
  | some p => (execute_complex_query sampleOracle p).getD []
  | none => []

/-- Counterexample theorem for C8's scenario sentence. -/
theorem c8_counterexample_mice_scenario :
    c8_scenario_outcome ≠ []
    ∧ c8_scenario_outcome.all
        (fun r => !(rget r "query_type" == some "homology_reference")
          && !(rget r "query_type" == some "homology_result")) = true := by
  constructor
  · decide
  · decide

/-- Witness for C8 at the concrete mapping TP53 → Trp53 (mouse) with the
sample oracle. -/
theorem c8_homology_resolution_witness :
    tagHomologyRef (sample_success_record "TP53" "human")
        ∈ query_homology sampleOracle "TP53" "mouse"
    ∧ tagHomologyRes "TP53" "mouse" (sample_success_record "Trp53" "mouse")
        ∈ query_homology sampleOracle "TP53" "mouse"
    ∧ rget (tagHomologyRef (sample_success_record "TP53" "human")) "query_type"
        = some "homology_reference"
    ∧ rget (tagHomologyRes "TP53" "mouse" (sample_success_record "Trp53" "mouse"))
        "query_type" = some "homology_result"
    ∧ rget (tagHomologyRes "TP53" "mouse" (sample_success_record "Trp53" "mouse"))
        "homology_relationship" = some "ortholog" :=
  c8_homology_resolution.1 sampleOracle "TP53" "mouse" "Trp53" (by decide)
    (sample_success_record "TP53" "human") (List.mem_singleton.mpr rfl) (by decide)
    (sample_success_record "Trp53" "mouse") (List.mem_singleton.mpr rfl) (by decide)
